import Mathlib

/-!
Verification development for the AI-Upsell recommendation engine
(`backend/services/groqAIEngine.js`, the `GroqAIEngine` class together with the
module-level recommendation cache).

The JavaScript code is shallowly embedded below.  Conventions:

* JavaScript values that can be either a number or a string (product ids) are
  modelled by the tagged type `JsId`; `JsId.toStr` models `String(x)` and
  structural equality of `JsId` models both `===` and MongoDB equality, since
  neither matches a number against a string.
* JavaScript numbers are modelled as exact rationals `ℚ`;
  `Number.prototype.toFixed(4)` followed by `parseFloat` is modelled by
  `round4` (round half up at the fourth decimal).
* `Array.prototype.sort` with comparator `(a, b) => g(b) - g(a)` is a stable
  descending sort; it is modelled by the stable insertion sort `sortDesc`.
* The remote Groq call is the untrusted environment: a request outcome is
  `none` when the call or the JSON extraction fails (any thrown error), and
  `some entries` when a JSON array of entries was recovered; the entries are
  arbitrary.  Everything after that point is deterministic and is embedded
  faithfully.
* MongoDB reads (`find`, `findOne`, aggregations) are modelled by passing their
  result lists as parameters; `findOne`/`$in` match strictly, which the
  embedding mirrors with structural `JsId` equality.
-/

namespace Upsell

/-! ## JavaScript primitives -/

/-- Decimal digit to character. -/
def digitChar (d : Nat) : Char := Char.ofNat (48 + d)

/-- Fuel-driven decimal rendering of a natural number (fuel is always
sufficient at `n + 1`). -/
def natToStrAux : Nat → Nat → List Char
  | 0, _ => []
  | fuel + 1, n => if n < 10 then [digitChar n] else natToStrAux fuel (n / 10) ++ [digitChar (n % 10)]

/-- Decimal rendering of a natural number, as JavaScript `String(n)`. -/
def natToStr (n : Nat) : String := String.mk (natToStrAux (n + 1) n)

/-- A JavaScript product id: either a number or a string. -/
inductive JsId where
  | num : Int → JsId
  | str : String → JsId
deriving DecidableEq

/-- JavaScript `String(id)`. -/
def JsId.toStr : JsId → String
  | .num n => if n < 0 then String.mk ('-' :: (natToStr n.natAbs).toList) else natToStr n.natAbs
  | .str s => s

/-- JavaScript truthiness of a string (`""` is the only falsy string). -/
def truthy (s : String) : Bool := decide (¬ s = "")

/-- `userId || 'anon'` for an optional user id. -/
def jsOrAnon : Option String → String
  | none => "anon"
  | some s => if s = "" then "anon" else s

/-- ASCII lower-casing of one character, as `String.prototype.toLowerCase`
acts on the ASCII range (all inputs of interest are ASCII). -/
def jsToLower (c : Char) : Char :=
  if 65 ≤ c.toNat ∧ c.toNat ≤ 90 then Char.ofNat (c.toNat + 32) else c

/-- Boolean membership of a string in a string list (`Set.has` / `includes`). -/
def memStr (l : List String) (s : String) : Bool := l.any (fun t => decide (t = s))

/-- `needle` is a prefix of the second list. -/
def isPrefixChars : List Char → List Char → Bool
  | [], _ => true
  | _ :: _, [] => false
  | a :: as, b :: bs => a = b && isPrefixChars as bs

/-- Substring containment on character lists, as `String.prototype.includes`. -/
def containsSub (needle : List Char) : List Char → Bool
  | [] => needle.isEmpty
  | c :: rest => isPrefixChars needle (c :: rest) || containsSub needle rest

/-- Stable insertion of `a` into a descending-by-`f` list: `a` goes before the
first element with a strictly smaller key, hence after all earlier elements
with an equal key — the placement a stable descending sort produces. -/
def insertDesc (f : α → ℚ) (a : α) : List α → List α
  | [] => [a]
  | b :: bs => if f a < f b then b :: insertDesc f a bs else a :: b :: bs

/-- Stable descending sort by key `f`, modelling
`array.sort((x, y) => f(y) - f(x))` (ECMAScript sorts are stable). -/
def sortDesc (f : α → ℚ) : List α → List α
  | [] => []
  | a :: as => insertDesc f a (sortDesc f as)

/-- `parseFloat(x.toFixed(4))`: round half up at the fourth decimal, as an
exact-rational idealization of the IEEE operation. -/
def round4 (q : ℚ) : ℚ := (⌊q * 10000 + 1/2⌋ : ℚ) / 10000

/-- First-occurrence deduplication, as `[...new Set(array)]`. -/
def uniqueFirst (l : List String) : List String :=
  l.foldl (fun acc a => if memStr acc a then acc else acc ++ [a]) []

/-! ## Lexical type matcher (`STOP_WORDS`, `getTitleTokens`, `computeTypeScore`) -/

def STOP_WORDS : List String :=
  ["a", "an", "the", "and", "or", "with", "in", "for", "of", "to", "at", "by", "from",
   "is", "its", "it", "this", "that", "on", "as", "be", "my", "our", "your"]

/-- Separator class of the regex `[\s\-_/]`. -/
def isSepChar (c : Char) : Bool := c.isWhitespace || c = '-' || c = '_' || c = '/'

/-- Split a character list on separators.  Runs of separators yield empty
fragments here where the regex `+` would collapse them; the length filter in
`getTitleTokens` discards those fragments, so the token list agrees with the
JavaScript `split(/[\s\-_/]+/)` pipeline. -/
def splitOnSeps : List Char → List Char → List (List Char)
  | [], acc => [acc.reverse]
  | c :: rest, acc => if isSepChar c then acc.reverse :: splitOnSeps rest [] else splitOnSeps rest (c :: acc)

/-- Keep only ASCII letters, as `w.replace(/[^a-z]/g, '')` after lower-casing. -/
def isAsciiLowerAlpha (c : Char) : Bool := 97 ≤ c.toNat && c.toNat ≤ 122

/-- `getTitleTokens(title)`: lowercase, split on whitespace/hyphen/underscore/
slash, strip non-letters, keep tokens of length ≥ 3 outside `STOP_WORDS`. -/
def getTitleTokens (title : String) : List String :=
  if title = "" then []
  else
    ((splitOnSeps (title.toList.map jsToLower) []).map
        (fun w => String.mk (w.filter isAsciiLowerAlpha))).filter
      (fun w => 3 ≤ w.length && !(decide (w ∈ STOP_WORDS)))

/-- `computeTypeScore(sourceTitleTokens, candidateTitle)`: how many source
tokens occur as substrings of the lower-cased candidate title. -/
def computeTypeScore (sourceTitleTokens : List String) (candidateTitle : String) : Nat :=
  (sourceTitleTokens.filter (fun t => containsSub t.toList (candidateTitle.toList.map jsToLower))).length

/-! ## Data model -/

/-- The `aiData` sub-document of a stored product; absent fields are the empty
string / empty list, which are exactly the falsy cases the code tests. -/
structure AiData where
  category : String := ""
  brand : String := ""
  color : String := ""
  price : String := ""
  keywords : List String := []
  features : List String := []
deriving DecidableEq

/-- A stored catalog product (the fields the engine reads). -/
structure Product where
  productId : JsId
  title : String
  aiData : AiData := {}
deriving DecidableEq

/-- A recommendation object: a spread copy of a product plus the AI / synthetic
fields the engine attaches.  `confidence := none` models an `undefined`
confidence. -/
structure Rec where
  product : Product
  aiReason : String
  confidence : Option ℚ
  recommendationType : String
  engagementBoost : Option ℚ := none
  historySource : Option String := none
  historyScore : ℚ := 0
  similarityScore : ℚ := 0
deriving DecidableEq

def Rec.productId (r : Rec) : JsId := r.product.productId

def Rec.title (r : Rec) : String := r.product.title

/-- One element of the JSON array recovered from the model's free-form text. -/
structure ModelEntry where
  productId : JsId
  reason : String
  confidence : Option ℚ
  recommendationType : String
deriving DecidableEq

/-- One row of `getUserInterestProfile` (top-5 browsing aggregation). -/
structure ProfileItem where
  productId : JsId
  productTitle : String
  totalTimeSeconds : ℚ
deriving DecidableEq

/-- One row of `getUserCartHistory` (top-8 cart aggregation; the code maps the
grouped id through `String(...)`). -/
structure CartHistItem where
  productId : String
  count : ℚ
deriving DecidableEq

/-- One row of the engagement aggregation in `getEngagementBoosts`. -/
structure EngagementRow where
  productId : String
  avgTimeSeconds : ℚ
  sessions : Nat
deriving DecidableEq

/-- Result shape of `buildHistoryCandidates`. -/
structure HistoryCandidates where
  time : List Rec
  cart : List Rec
  all : List Rec
deriving DecidableEq

/-- `String(r.productId)` for each recommendation of a list. -/
def recIds (l : List Rec) : List String := l.map (fun r => r.productId.toStr)

/-- `rec.confidence || 0`. -/
def jsConfOr0 (r : Rec) : ℚ := match r.confidence with | none => 0 | some c => c

/-- `rec.confidence || 0.5`. -/
def jsConfOrHalf (r : Rec) : ℚ :=
  match r.confidence with
  | none => 1/2
  | some c => if c = 0 then 1/2 else c

/-! ## Response parser (`parseGroqRecommendations`) -/

/-- `{ ...product, aiReason, confidence, recommendationType }`. -/
def recOfEntry (p : Product) (e : ModelEntry) : Rec :=
  { product := p, aiReason := e.reason, confidence := e.confidence,
    recommendationType := e.recommendationType }

/-- `parseGroqRecommendations` after a JSON array was recovered: each entry is
matched against the candidate set by `String(p.productId) === String(rec.productId)
|| p.productId === rec.productId`; unresolvable entries are dropped. -/
def parseGroqRecommendations (entries : List ModelEntry) (candidateProducts : List Product) : List Rec :=
  entries.filterMap (fun e =>
    (candidateProducts.find? (fun p =>
        decide (p.productId.toStr = e.productId.toStr) || decide (p.productId = e.productId))).map
      (fun p => recOfEntry p e))

/-! ## Ranking & padding (`analyzeWithGroq` / `analyzeCartWithGroq`, post-call part) -/

/-- A tier-2 / tier-3 padding recommendation built from a DB candidate. -/
def padRec (reason : String) (conf : ℚ) (p : Product) : Rec :=
  { product := p, aiReason := reason, confidence := some conf, recommendationType := "similar" }

/-- One DB-candidate padding tier: when `combined` is still short of `limit`,
append (a prefix of) the candidates passing `g` whose id is not yet used,
rendered through `mk`.  (`analyzeWithGroq` / `analyzeCartWithGroq` tier 2 uses
the same-type test for `g`; tier 3 uses the constant `true`, where `&& true`
leaves the source's filter unchanged.) -/
def tierPad (limit : Nat) (combined : List Rec) (candidateProducts : List Product)
    (g : Product → Bool) (mk : Product → Rec) : List Rec :=
  if combined.length < limit then
    combined ++ ((candidateProducts.filter (fun p =>
        !(memStr (recIds combined) p.productId.toStr) && g p)).take
      (limit - combined.length)).map mk
  else combined

/-- The two DB-candidate padding tiers shared by `analyzeWithGroq` and
`analyzeCartWithGroq`: first unused same-type candidates (confidence 0.65 with
the path-specific reason), then any unused candidates (reason
"You might also like", confidence 0.5). -/
def padFrom (tokens : List String) (candidateProducts : List Product) (limit : Nat)
    (sameTypeReason : String) (combined0 : List Rec) : List Rec :=
  tierPad limit
    (tierPad limit combined0 candidateProducts
      (fun p => decide (0 < computeTypeScore tokens p.title)) (padRec sameTypeReason (65/100)))
    candidateProducts (fun _ => true) (padRec ("You might also like") (1/2))

/-- Common tail of both analysis functions: early return of `base` when it
already reaches `limit`, otherwise tier-1 padding with the remaining parsed
results (dedup by `String(productId)`), the DB tiers, and truncation. -/
def padAndTruncate (tokens : List String) (candidateProducts : List Product) (limit : Nat)
    (sameTypeReason : String) (results base : List Rec) : List Rec :=
  if limit ≤ base.length then base.take limit
  else
    (padFrom tokens candidateProducts limit sameTypeReason
      (base ++ results.filter (fun r => !(memStr (recIds base) r.productId.toStr)))).take limit

/-- The post-filter of `analyzeWithGroq`: with a non-empty `userProfile` keep
all parsed results; otherwise keep same-type results, falling back to the
unfiltered results when the filter empties the list. -/
def filterBase (profLen : Nat) (tokens : List String) (results : List Rec) : List Rec :=
  if 0 < profLen then results
  else if 0 < (results.filter (fun r => decide (0 < computeTypeScore tokens r.title))).length then
    results.filter (fun r => decide (0 < computeTypeScore tokens r.title))
  else results

/-- The post-filter of `analyzeCartWithGroq` (no empty-filter fallback here;
an emptied filter simply leaves everything to the padding tiers). -/
def cartFilterBase (profLen : Nat) (tokens : List String) (results : List Rec) : List Rec :=
  if 0 < profLen then results
  else results.filter (fun r => decide (0 < computeTypeScore tokens r.title))

/-- `[...new Set(cartProducts.flatMap(p => getTitleTokens(p.title)))]`. -/
def cartTokensOf (cartProducts : List Product) : List String :=
  uniqueFirst (cartProducts.flatMap (fun p => getTitleTokens p.title))

/-- `analyzeWithGroq` from the point where a parsed entry list exists (prompt
construction and the network call only shape `entries`; `cartHistory` feeds the
prompt and is not consulted afterwards). -/
def analyzeWithGroq (currentProduct : Product) (candidateProducts : List Product) (limit : Nat)
    (userProfile : List ProfileItem) (cartHistory : List CartHistItem)
    (entries : List ModelEntry) : List Rec :=
  let _ := cartHistory
  let currentTokens := getTitleTokens currentProduct.title
  let results := parseGroqRecommendations entries candidateProducts
  padAndTruncate currentTokens candidateProducts limit ("Similar product you might like") results
    (filterBase userProfile.length currentTokens results)

/-- `analyzeCartWithGroq` from the point where a parsed entry list exists.
Tokens are the union (first-occurrence dedup) of all cart-item title tokens;
the same-type filter is applied exactly when `userProfile` is empty, and the
tier-2 padding reason is "Related to your cart items". -/
def analyzeCartWithGroq (cartProducts : List Product) (candidateProducts : List Product) (limit : Nat)
    (userProfile : List ProfileItem) (cartHistory : List CartHistItem)
    (entries : List ModelEntry) : List Rec :=
  let _ := cartHistory
  let cartTokens := cartTokensOf cartProducts
  let results := parseGroqRecommendations entries candidateProducts
  padAndTruncate cartTokens candidateProducts limit ("Related to your cart items") results
    (cartFilterBase userProfile.length cartTokens results)

/-! ## Fallback ranking engine -/

/-- `calculateSimilarity(product1, product2)`. -/
def calculateSimilarity (product1 product2 : Product) : ℚ :=
  let score : ℚ := 0
  let score := if truthy product1.aiData.category && truthy product2.aiData.category &&
      decide (product1.aiData.category = product2.aiData.category) then score + 40 else score
  let score := if truthy product1.aiData.brand && truthy product2.aiData.brand &&
      decide (product1.aiData.brand = product2.aiData.brand) then score + 25 else score
  let score := if truthy product1.aiData.color && truthy product2.aiData.color &&
      decide (product1.aiData.color = product2.aiData.color) then score + 15 else score
  let overlap := (product1.aiData.keywords.filter
      (fun k => product2.aiData.keywords.any (fun k2 => decide (k2 = k)))).length
  score + min (5 * (overlap : ℚ)) 20

/-- The similarity score as the specification words it: the SUM of `+40` if
categories equal (both non-empty), `+25` if brands equal (both non-empty),
`+15` if colors equal (both present), and `+min(5*keywordOverlapCount, 20)`.
Written independently of `calculateSimilarity` to compare the two. -/
def specSimilarity (product1 product2 : Product) : ℚ :=
  (if truthy product1.aiData.category && truthy product2.aiData.category &&
      decide (product1.aiData.category = product2.aiData.category) then (40:ℚ) else 0) +
  (if truthy product1.aiData.brand && truthy product2.aiData.brand &&
      decide (product1.aiData.brand = product2.aiData.brand) then (25:ℚ) else 0) +
  (if truthy product1.aiData.color && truthy product2.aiData.color &&
      decide (product1.aiData.color = product2.aiData.color) then (15:ℚ) else 0) +
  min (5 * (((product1.aiData.keywords.filter
      (fun k => product2.aiData.keywords.any (fun k2 => decide (k2 = k)))).length : ℕ) : ℚ)) 20

/-- `fallbackRecommendations(shopId, currentProductId, limit)`, with the shop's
product list passed in place of the MongoDB reads.  `findOne` matches the id
strictly; when the subject is missing the first `limit` products are returned
with flat confidence 0.5. -/
def fallbackRecommendations (allShopProducts : List Product) (currentProductId : JsId)
    (limit : Nat) : List Rec :=
  match allShopProducts.find? (fun p => decide (p.productId = currentProductId)) with
  | none =>
      (allShopProducts.take limit).map (fun p =>
        { product := p, aiReason := "You might also like this product", confidence := some (1/2),
          recommendationType := "similar" })
  | some currentProduct =>
      let otherProducts := allShopProducts.filter
        (fun p => !(decide (p.productId.toStr = currentProductId.toStr)))
      let productsWithScores := sortDesc (fun pr => pr.2)
        (otherProducts.map (fun p => (p, calculateSimilarity currentProduct p)))
      (productsWithScores.take limit).map (fun pr =>
        { product := pr.1, similarityScore := pr.2,
          aiReason := "Recommended based on product similarity",
          confidence := some (pr.2 / 100), recommendationType := "similar" })

/-- `fallbackCartRecommendations(shopId, cartProductIds, limit)`.  Both the
`$in` query and `cartProductIds.includes(p.productId)` match ids strictly (a
number never equals a string); confidences are `min(averageScore/100, 0.9)`. -/
def fallbackCartRecommendations (allShopProducts : List Product) (cartProductIds : List JsId)
    (limit : Nat) : List Rec :=
  let cartProducts := allShopProducts.filter
    (fun p => cartProductIds.any (fun c => decide (c = p.productId)))
  if cartProducts.isEmpty then
    (allShopProducts.take limit).map (fun p =>
      { product := p, aiReason := "You might also like this product", confidence := some (1/2),
        recommendationType := "complementary" })
  else
    let otherProducts := allShopProducts.filter
      (fun p => !(cartProductIds.any (fun c => decide (c = p.productId))))
    let productsWithScores := sortDesc (fun pr => pr.2)
      (otherProducts.map (fun p =>
        (p, ((cartProducts.map (fun c => calculateSimilarity c p)).sum) / (cartProducts.length : ℚ))))
    (productsWithScores.take limit).map (fun pr =>
      { product := pr.1, similarityScore := pr.2,
        aiReason := "Complements your cart items",
        confidence := some (min (pr.2 / 100) (9/10)), recommendationType := "complementary" })

/-! ## History profile merge -/

/-- `Map(products.map(p => [String(p.productId), p])).get(k)`: with duplicate
string ids the later entry overwrites the earlier one. -/
def lookupByStrId (products : List Product) (k : String) : Option Product :=
  (products.filter (fun p => decide (p.productId.toStr = k))).getLast?

/-- `buildHistoryCandidates(allProducts, userProfile, cartHistory, excludeIds)`:
resolve each history row against the catalog, drop excluded / unknown ids, tag
with the fixed reason / confidence / source, and sort each list (and their
concatenation) by history score descending. -/
def buildHistoryCandidates (allProducts : List Product) (userProfile : List ProfileItem)
    (cartHistory : List CartHistItem) (excludeIds : List String) : HistoryCandidates :=
  let timeItems := userProfile.filterMap (fun p =>
    let pid := p.productId.toStr
    if memStr excludeIds pid then none
    else (lookupByStrId allProducts pid).map (fun product =>
      { product := product, aiReason := "Based on your browsing history",
        confidence := some (3/5), recommendationType := "complementary",
        historySource := some ("time"), historyScore := p.totalTimeSeconds }))
  let timeItems := sortDesc (fun r => r.historyScore) timeItems
  let cartItems := cartHistory.filterMap (fun c =>
    let pid := c.productId
    if memStr excludeIds pid then none
    else (lookupByStrId allProducts pid).map (fun product =>
      { product := product, aiReason := "Based on your past cart activity",
        confidence := some (31/50), recommendationType := "complementary",
        historySource := some ("cart"), historyScore := c.count }))
  let cartItems := sortDesc (fun r => r.historyScore) cartItems
  let combined := sortDesc (fun r => r.historyScore) (timeItems ++ cartItems)
  { time := timeItems, cart := cartItems, all := combined }

/-- The `add` closure of `mergeHistoryWithRecommendations`: state is the result
list and the set of added ids; falsy (empty) ids and duplicates are skipped. -/
def addRec (st : List Rec × List String) (r : Rec) : List Rec × List String :=
  let id := r.productId.toStr
  if decide (id = "") || memStr st.2 id then st else (st.1 ++ [r], st.2 ++ [id])

/-- A `for`-loop `if (final.length >= cap) break; add(rec);` over `l`. -/
def addUpTo (cap : Nat) (st : List Rec × List String) (l : List Rec) : List Rec × List String :=
  l.foldl (fun st r => if cap ≤ st.1.length then st else addRec st r) st

/-- `mergeHistoryWithRecommendations(recommendations, historyCandidates, limit)`. -/
def mergeHistoryWithRecommendations (recommendations : List Rec)
    (historyCandidates : HistoryCandidates) (limit : Nat) : List Rec :=
  let required :=
    (match historyCandidates.time with | [] => ([] : List Rec) | t :: _ => [t]) ++
    (match historyCandidates.cart with | [] => ([] : List Rec) | c :: _ => [c])
  let st := addUpTo limit ([], []) required
  let targetHistoryCount := min limit (max st.1.length (limit / 2))
  let historyPool := historyCandidates.all.filter (fun h => !(memStr st.2 h.productId.toStr))
  let st1 := addUpTo targetHistoryCount st historyPool
  let st2 := addUpTo limit st1 recommendations
  let st3 := addUpTo limit st2 historyPool
  (st3.1).take limit

/-! ## Engagement booster -/

/-- `getEngagementBoosts`, given the aggregation rows (per-product average
time and session count over the window): rows with fewer than 2 sessions are
skipped, the bonus is `(min(avg, 300) / 300) * 0.15` rounded to 4 decimals. -/
def getEngagementBoosts (rows : List EngagementRow) : List (String × ℚ) :=
  rows.filterMap (fun row =>
    if row.sessions < 2 then none
    else some (row.productId, round4 (min row.avgTimeSeconds 300 / 300 * (15/100))))

/-- `boostMap[k] || 0`; with duplicate keys the later assignment wins, as in a
JavaScript object. -/
def lookupBoost (boostMap : List (String × ℚ)) (k : String) : ℚ :=
  match (boostMap.filter (fun e => decide (e.1 = k))).getLast? with
  | none => 0
  | some e => e.2

/-- The element transform inside `applyEngagementBoosts`: a zero bonus returns
the object unchanged; otherwise confidence becomes
`min((confidence || 0.5) + bonus, 1.0)` rounded to 4 decimals and the bonus is
recorded. -/
def boostOne (boostMap : List (String × ℚ)) (rec : Rec) : Rec :=
  let bonus := lookupBoost boostMap rec.productId.toStr
  if bonus = 0 then rec
  else
    { rec with
      confidence := some (round4 (min (jsConfOrHalf rec + bonus) 1)),
      engagementBoost := some bonus }

/-- `applyEngagementBoosts(recommendations, boostMap)`: an empty map returns
the list unchanged (no re-sort); otherwise boost each element and re-sort by
`confidence || 0` descending. -/
def applyEngagementBoosts (recommendations : List Rec) (boostMap : List (String × ℚ)) : List Rec :=
  if boostMap.isEmpty then recommendations
  else sortDesc jsConfOr0 (recommendations.map (boostOne boostMap))

/-! ## Public entry points (cache-miss computation) -/

/-- The engagement-boost stage shared by both entry points: fetch boosts for
exactly the merged ids (the `$in` clause) and re-rank. -/
def boostStage (merged : List Rec) (engagementRows : List EngagementRow) : List Rec :=
  applyEngagementBoosts merged
    (getEngagementBoosts (engagementRows.filter (fun row => memStr (recIds merged) row.productId)))

/-- The cart-history rows that survive enrichment: those resolvable against
the catalog by `String` id (`allProductsMap.get`). -/
def enrichCartHistory (allProducts : List Product) (rawCartHistory : List CartHistItem) :
    List CartHistItem :=
  rawCartHistory.filter (fun ch => (lookupByStrId allProducts ch.productId).isSome)

/-- The recommendation stage of `findUpsellProducts`: the Groq analysis when
the remote call produced entries, `fallbackRecommendations` when it failed or
produced an empty usable list. -/
def upsellRecsStage (allProducts : List Product) (currentProduct : Product)
    (currentProductId : JsId) (limit : Nat) (userProfile : List ProfileItem)
    (cartHistory : List CartHistItem) (groq : Option (List ModelEntry)) : List Rec :=
  match groq with
  | none => fallbackRecommendations allProducts currentProductId limit
  | some entries =>
    if (analyzeWithGroq currentProduct
        (allProducts.filter (fun p => !(decide (p.productId.toStr = currentProductId.toStr))))
        limit userProfile cartHistory entries).isEmpty then
      fallbackRecommendations allProducts currentProductId limit
    else
      analyzeWithGroq currentProduct
        (allProducts.filter (fun p => !(decide (p.productId.toStr = currentProductId.toStr))))
        limit userProfile cartHistory entries

/-- `findUpsellProducts(shopId, currentProductId, limit, userId)` on a cache
miss, as a function of the catalog, the two history aggregations, the remote
outcome and the engagement aggregation.  A missing subject product throws
`Current product not found`, which the outer catch turns into
`fallbackRecommendations`; a Groq failure or an empty Groq result likewise
falls back.  Engagement rows are restricted to the merged ids, as the `$in`
clause of `getEngagementBoosts` does. -/
def findUpsellProductsCore (allProducts : List Product) (currentProductId : JsId) (limit : Nat)
    (userProfile : List ProfileItem) (rawCartHistory : List CartHistItem)
    (groq : Option (List ModelEntry)) (engagementRows : List EngagementRow) : List Rec :=
  match allProducts.find? (fun p => decide (p.productId = currentProductId)) with
  | none => fallbackRecommendations allProducts currentProductId limit
  | some currentProduct =>
    if (allProducts.filter
        (fun p => !(decide (p.productId.toStr = currentProductId.toStr)))).isEmpty then []
    else
      boostStage
        (mergeHistoryWithRecommendations
          (upsellRecsStage allProducts currentProduct currentProductId limit userProfile
            (enrichCartHistory allProducts rawCartHistory) groq)
          (buildHistoryCandidates allProducts userProfile
            (enrichCartHistory allProducts rawCartHistory) [currentProductId.toStr])
          limit)
        engagementRows

/-- The recommendation stage of `findCartUpsellProducts`. -/
def cartRecsStage (allProducts : List Product) (cartProductIds : List JsId) (limit : Nat)
    (userProfile : List ProfileItem) (cartHistory : List CartHistItem)
    (groq : Option (List ModelEntry)) : List Rec :=
  match groq with
  | none => fallbackCartRecommendations allProducts cartProductIds limit
  | some entries =>
    if (analyzeCartWithGroq
        (allProducts.filter (fun p => memStr (cartProductIds.map JsId.toStr) p.productId.toStr))
        (allProducts.filter (fun p => !(memStr (cartProductIds.map JsId.toStr) p.productId.toStr)))
        limit userProfile cartHistory entries).isEmpty then
      fallbackCartRecommendations allProducts cartProductIds limit
    else
      analyzeCartWithGroq
        (allProducts.filter (fun p => memStr (cartProductIds.map JsId.toStr) p.productId.toStr))
        (allProducts.filter (fun p => !(memStr (cartProductIds.map JsId.toStr) p.productId.toStr)))
        limit userProfile cartHistory entries

/-- `findCartUpsellProducts(shopId, cartProductIds, limit, userId)` on a cache
miss.  Valid cart products and the candidate set are selected by
`String`-normalized membership; an empty valid-cart set throws and the outer
catch falls back to `fallbackCartRecommendations` (whose own id matching is
strict).  Cart-history rows for products in the current cart are excluded
before enrichment. -/
def findCartUpsellProductsCore (allProducts : List Product) (cartProductIds : List JsId)
    (limit : Nat) (userProfile : List ProfileItem) (rawCartHistory : List CartHistItem)
    (groq : Option (List ModelEntry)) (engagementRows : List EngagementRow) : List Rec :=
  if (allProducts.filter
      (fun p => memStr (cartProductIds.map JsId.toStr) p.productId.toStr)).isEmpty then
    fallbackCartRecommendations allProducts cartProductIds limit
  else if (allProducts.filter
      (fun p => !(memStr (cartProductIds.map JsId.toStr) p.productId.toStr))).isEmpty then []
  else
    boostStage
      (mergeHistoryWithRecommendations
        (cartRecsStage allProducts cartProductIds limit userProfile
          (enrichCartHistory allProducts
            (rawCartHistory.filter (fun ch => !(memStr (cartProductIds.map JsId.toStr) ch.productId))))
          groq)
        (buildHistoryCandidates allProducts userProfile
          (enrichCartHistory allProducts
            (rawCartHistory.filter (fun ch => !(memStr (cartProductIds.map JsId.toStr) ch.productId))))
          (cartProductIds.map JsId.toStr))
        limit)
      engagementRows

/-! ## Recommendation cache -/

/-- One cache value: the stored result list and its insertion timestamp. -/
structure CacheEntry where
  data : List Rec
  timestamp : ℚ
deriving DecidableEq

/-- The module-level `Map`, as an insertion-ordered association list with
unique keys. -/
abbrev Cache := List (String × CacheEntry)

def CACHE_TTL_MS : ℚ := 5 * 60 * 1000

/-- `getCacheKey(type, shopId, productId, userId)`. -/
def getCacheKey (type shopId productId : String) (userId : Option String) : String :=
  type ++ ":" ++ shopId ++ ":" ++ productId ++ ":" ++ jsOrAnon userId

/-- `getFromCache(key)` at time `now`: returns the stored data when present
and fresh, and the possibly-updated cache (an expired entry is deleted). -/
def getFromCache (cache : Cache) (key : String) (now : ℚ) : Option (List Rec) × Cache :=
  match cache.find? (fun e => decide (e.1 = key)) with
  | none => (none, cache)
  | some e =>
    if CACHE_TTL_MS < now - e.2.timestamp then
      (none, cache.filter (fun x => !(decide (x.1 = key))))
    else (some e.2.data, cache)

/-- `clearUserProductCache(shopId, productId, userId)`: delete the entry keyed
`product:shopId:String(productId):userId||'anon'`. -/
def clearUserProductCache (cache : Cache) (shopId : String) (productId : JsId)
    (userId : Option String) : Cache :=
  cache.filter (fun e => !(decide (e.1 = getCacheKey ("product") shopId productId.toStr userId)))

/-- `String(p.productId)` for each product of a list. -/
def idsP (l : List Product) : List String := l.map (fun p => p.productId.toStr)

/-! ## Basic lemmas -/

theorem memStr_iff {l : List String} {s : String} : memStr l s = true ↔ s ∈ l := by
  simp only [memStr, List.any_eq_true, decide_eq_true_eq, exists_eq_right]

theorem memStr_eq_false_iff {l : List String} {s : String} : memStr l s = false ↔ s ∉ l := by
  rw [← Bool.not_eq_true, not_iff_not, memStr_iff]

theorem recIds_append (a b : List Rec) : recIds (a ++ b) = recIds a ++ recIds b := by
  simp [recIds]

theorem mem_recIds {l : List Rec} {r : Rec} (h : r ∈ l) : r.productId.toStr ∈ recIds l :=
  List.mem_map_of_mem _ h

theorem mem_idsP {l : List Product} {p : Product} (h : p ∈ l) : p.productId.toStr ∈ idsP l :=
  List.mem_map_of_mem _ h

theorem idsP_filter_sub (l : List Product) (g : Product → Bool) :
    List.Sublist ((l.filter g).map (fun p => p.productId.toStr)) (idsP l) :=
  (List.filter_sublist l).map _

theorem recIds_take (n : Nat) (l : List Rec) : recIds (l.take n) = (recIds l).take n := by
  simp [recIds, List.map_take]

/-! ## `sortDesc` lemmas -/

theorem insertDesc_perm (f : α → ℚ) (a : α) (l : List α) : List.Perm (insertDesc f a l) (a :: l) := by
  induction l with
  | nil => simp [insertDesc]
  | cons b bs ih =>
    by_cases h : f a < f b
    · simp only [insertDesc, if_pos h]
      exact (ih.cons b).trans (List.Perm.swap a b bs)
    · simp [insertDesc, if_neg h]

theorem sortDesc_perm (f : α → ℚ) (l : List α) : List.Perm (sortDesc f l) l := by
  induction l with
  | nil => simp [sortDesc]
  | cons a as ih => exact (insertDesc_perm f a (sortDesc f as)).trans (ih.cons a)

theorem mem_sortDesc {f : α → ℚ} {l : List α} {x : α} : x ∈ sortDesc f l ↔ x ∈ l :=
  (sortDesc_perm f l).mem_iff

theorem sortDesc_length (f : α → ℚ) (l : List α) : (sortDesc f l).length = l.length :=
  (sortDesc_perm f l).length_eq

theorem insertDesc_pairwise {f : α → ℚ} {a : α} {l : List α}
    (h : l.Pairwise (fun x y => f y ≤ f x)) :
    (insertDesc f a l).Pairwise (fun x y => f y ≤ f x) := by
  induction l with
  | nil => simp [insertDesc]
  | cons b bs ih =>
    rcases List.pairwise_cons.1 h with ⟨hb, hbs⟩
    by_cases hab : f a < f b
    · simp only [insertDesc, if_pos hab]
      refine List.pairwise_cons.2 ⟨?_, ih hbs⟩
      intro y hy
      rcases List.mem_cons.1 ((insertDesc_perm f a bs).mem_iff.1 hy) with hyl | hyl
      · subst hyl; exact le_of_lt hab
      · exact hb y hyl
    · simp only [insertDesc, if_neg hab]
      refine List.pairwise_cons.2 ⟨?_, h⟩
      intro y hy
      rcases List.mem_cons.1 hy with hyl | hyl
      · subst hyl; exact le_of_not_lt hab
      · exact le_trans (hb y hyl) (le_of_not_lt hab)

theorem sortDesc_pairwise (f : α → ℚ) (l : List α) :
    (sortDesc f l).Pairwise (fun x y => f y ≤ f x) := by
  induction l with
  | nil => simp [sortDesc]
  | cons a as ih => exact insertDesc_pairwise ih

/-! ## `round4` lemmas -/

theorem round4_mono {x y : ℚ} (h : x ≤ y) : round4 x ≤ round4 y := by
  unfold round4
  have : (⌊x * 10000 + 1/2⌋ : ℤ) ≤ ⌊y * 10000 + 1/2⌋ := by
    apply Int.floor_mono
    nlinarith
  have h2 : ((⌊x * 10000 + 1/2⌋ : ℤ) : ℚ) ≤ ((⌊y * 10000 + 1/2⌋ : ℤ) : ℚ) := by
    exact_mod_cast this
  nlinarith

/-- `round4` is the identity on rationals with denominator dividing 10000. -/
theorem round4_exact (k : ℤ) : round4 ((k : ℚ) / 10000) = (k : ℚ) / 10000 := by
  unfold round4
  have : (k : ℚ) / 10000 * 10000 + 1/2 = (k : ℚ) + 1/2 := by ring
  rw [this]
  have hfl : (⌊(k : ℚ) + 1/2⌋ : ℤ) = k := by
    have := Int.floor_add_int ((1:ℚ)/2) k
    rw [add_comm] at this
    rw [this]
    norm_num
  rw [hfl]

theorem round4_nonneg {x : ℚ} (h : 0 ≤ x) : 0 ≤ round4 x := by
  have h0 : round4 0 = 0 := by
    have := round4_exact 0
    simpa using this
  calc (0:ℚ) = round4 0 := h0.symm
    _ ≤ round4 x := round4_mono h

theorem round4_le_one {x : ℚ} (h : x ≤ 1) : round4 x ≤ 1 := by
  have h1 : round4 1 = 1 := by
    have := round4_exact 10000
    norm_num at this
    simpa using this
  calc round4 x ≤ round4 1 := round4_mono h
    _ = 1 := h1

theorem round4_lb (x : ℚ) : x - 1/20000 < round4 x := by
  unfold round4
  have h := Int.sub_one_lt_floor (x * 10000 + 1/2)
  have h2 : x * 10000 + 1/2 - 1 < ((⌊x * 10000 + 1/2⌋ : ℤ) : ℚ) := h
  nlinarith

/-- Every `round4` value is an integer multiple of `1/10000`. -/
theorem round4_num (x : ℚ) : ∃ k : ℤ, round4 x = (k : ℚ) / 10000 :=
  ⟨⌊x * 10000 + 1/2⌋, rfl⟩

theorem round4_pos_ge {x : ℚ} (k : ℤ) (hk : x = (k : ℚ) / 10000) (hne : x ≠ 0) (hnn : 0 ≤ x) :
    1/10000 ≤ x := by
  subst hk
  have hkpos : 0 < k := by
    rcases lt_trichotomy k 0 with h | h | h
    · exfalso
      have : (k : ℚ) < 0 := by exact_mod_cast h
      nlinarith
    · exfalso; apply hne; rw [h]; norm_num
    · exact h
  have : (1 : ℚ) ≤ (k : ℚ) := by exact_mod_cast hkpos
  nlinarith

/-! ## `addRec` / `addUpTo` / merge lemmas -/

/-- Invariant of the merge loop state: the id list mirrors the result list,
has no duplicates and no falsy ids. -/
def MergeInv (st : List Rec × List String) : Prop :=
  st.2 = recIds st.1 ∧ st.2.Nodup ∧ ∀ s ∈ st.2, s ≠ ""

theorem mergeInv_nil : MergeInv ([], []) := by
  refine ⟨rfl, List.nodup_nil, ?_⟩
  intro s hs
  simp at hs

theorem addRec_eq (st : List Rec × List String) (r : Rec) :
    addRec st r =
      if (decide (r.productId.toStr = "") || memStr st.2 r.productId.toStr) = true then st
      else (st.1 ++ [r], st.2 ++ [r.productId.toStr]) := rfl

theorem addRec_skip_iff {st : List Rec × List String} {r : Rec}
    (h : ¬ ((decide (r.productId.toStr = "") || memStr st.2 r.productId.toStr) = true)) :
    r.productId.toStr ≠ "" ∧ r.productId.toStr ∉ st.2 := by
  simp only [Bool.or_eq_true, decide_eq_true_eq, memStr_iff] at h
  push_neg at h
  exact h

theorem addRec_inv {st : List Rec × List String} (h : MergeInv st) (r : Rec) :
    MergeInv (addRec st r) := by
  rcases h with ⟨hids, hnd, hne⟩
  by_cases hskip : (decide (r.productId.toStr = "") || memStr st.2 r.productId.toStr) = true
  · rw [addRec_eq, if_pos hskip]
    exact ⟨hids, hnd, hne⟩
  · rw [addRec_eq, if_neg hskip]
    rcases addRec_skip_iff hskip with ⟨h1, h2⟩
    refine ⟨?_, ?_, ?_⟩
    · simp [recIds, hids]
    · refine List.Nodup.append hnd (List.nodup_singleton _) ?_
      intro a ha hb
      simp only [List.mem_singleton] at hb
      subst hb
      exact h2 ha
    · intro s hs
      rcases List.mem_append.1 hs with hs | hs
      · exact hne s hs
      · simp only [List.mem_singleton] at hs
        subst hs
        exact h1

theorem addRec_fst_mem {st : List Rec × List String} {r : Rec} {x : Rec}
    (h : x ∈ (addRec st r).1) : x ∈ st.1 ∨ x = r := by
  by_cases hskip : (decide (r.productId.toStr = "") || memStr st.2 r.productId.toStr) = true
  · rw [addRec_eq, if_pos hskip] at h
    exact Or.inl h
  · rw [addRec_eq, if_neg hskip] at h
    rcases List.mem_append.1 h with h | h
    · exact Or.inl h
    · simp only [List.mem_singleton] at h
      exact Or.inr h

theorem addRec_len_ge (st : List Rec × List String) (r : Rec) :
    st.1.length ≤ (addRec st r).1.length := by
  rw [addRec_eq]
  split
  · exact le_refl _
  · simp

theorem addRec_len_le (st : List Rec × List String) (r : Rec) :
    (addRec st r).1.length ≤ st.1.length + 1 := by
  rw [addRec_eq]
  split
  · simp
  · simp

theorem addRec_ids_sub (st : List Rec × List String) (r : Rec) :
    ∀ s ∈ st.2, s ∈ (addRec st r).2 := by
  intro s hs
  rw [addRec_eq]
  split
  · exact hs
  · simp [hs]

theorem addRec_id_mem {st : List Rec × List String} {r : Rec}
    (h : r.productId.toStr ≠ "") : r.productId.toStr ∈ (addRec st r).2 := by
  by_cases hskip : (decide (r.productId.toStr = "") || memStr st.2 r.productId.toStr) = true
  · rw [addRec_eq, if_pos hskip]
    rcases Bool.or_eq_true_iff.1 hskip with h1 | h2
    · exact absurd (of_decide_eq_true h1) h
    · exact memStr_iff.1 h2
  · rw [addRec_eq, if_neg hskip]
    simp

theorem addUpTo_nil (cap : Nat) (st : List Rec × List String) : addUpTo cap st [] = st := rfl

theorem addUpTo_cons (cap : Nat) (st : List Rec × List String) (r : Rec) (t : List Rec) :
    addUpTo cap st (r :: t) =
      addUpTo cap (if cap ≤ st.1.length then st else addRec st r) t := rfl

theorem addUpTo_inv {cap : Nat} {l : List Rec} :
    ∀ {st : List Rec × List String}, MergeInv st → MergeInv (addUpTo cap st l) := by
  induction l with
  | nil => intro st h; exact h
  | cons r t ih =>
    intro st h
    rw [addUpTo_cons]
    apply ih
    split
    · exact h
    · exact addRec_inv h r

theorem addUpTo_fst_mem {cap : Nat} {l : List Rec} :
    ∀ {st : List Rec × List String} {x : Rec}, x ∈ (addUpTo cap st l).1 → x ∈ st.1 ∨ x ∈ l := by
  induction l with
  | nil => intro st x h; exact Or.inl h
  | cons r t ih =>
    intro st x h
    rw [addUpTo_cons] at h
    rcases ih h with h2 | h2
    · by_cases hc : cap ≤ st.1.length
      · rw [if_pos hc] at h2
        exact Or.inl h2
      · rw [if_neg hc] at h2
        rcases addRec_fst_mem h2 with h3 | h3
        · exact Or.inl h3
        · exact Or.inr (by simp [h3])
    · exact Or.inr (List.mem_cons_of_mem _ h2)

theorem addUpTo_len_ge {cap : Nat} {l : List Rec} :
    ∀ {st : List Rec × List String}, st.1.length ≤ (addUpTo cap st l).1.length := by
  induction l with
  | nil => intro st; exact le_refl _
  | cons r t ih =>
    intro st
    rw [addUpTo_cons]
    by_cases hc : cap ≤ st.1.length
    · rw [if_pos hc]; exact ih
    · rw [if_neg hc]
      exact le_trans (addRec_len_ge st r) ih

theorem addUpTo_cap {cap : Nat} {l : List Rec} :
    ∀ {st : List Rec × List String}, st.1.length ≤ cap → (addUpTo cap st l).1.length ≤ cap := by
  induction l with
  | nil => intro st h; exact h
  | cons r t ih =>
    intro st h
    rw [addUpTo_cons]
    by_cases hc : cap ≤ st.1.length
    · rw [if_pos hc]; exact ih h
    · rw [if_neg hc]
      exact ih (le_trans (addRec_len_le st r) (Nat.succ_le_of_lt (lt_of_not_le hc)))

theorem addUpTo_ids_sub {cap : Nat} {l : List Rec} :
    ∀ {st : List Rec × List String}, ∀ s ∈ st.2, s ∈ (addUpTo cap st l).2 := by
  induction l with
  | nil => intro st s hs; exact hs
  | cons r t ih =>
    intro st s hs
    rw [addUpTo_cons]
    apply ih
    split
    · exact hs
    · exact addRec_ids_sub st r s hs

theorem addUpTo_complete {cap : Nat} {l : List Rec} :
    ∀ {st : List Rec × List String}, (addUpTo cap st l).1.length < cap →
      ∀ r ∈ l, r.productId.toStr ≠ "" → r.productId.toStr ∈ (addUpTo cap st l).2 := by
  induction l with
  | nil => intro st _ r hr; simp at hr
  | cons a t ih =>
    intro st hlen r hr hne
    rw [addUpTo_cons] at hlen ⊢
    by_cases hc : cap ≤ st.1.length
    · exfalso
      rw [if_pos hc] at hlen
      exact absurd (le_trans hc addUpTo_len_ge) (not_le.2 hlen)
    · rw [if_neg hc] at hlen ⊢
      rcases List.mem_cons.1 hr with hr | hr
      · subst hr
        exact addUpTo_ids_sub _ (addRec_id_mem hne)
      · exact ih hlen r hr hne

theorem addUpTo_all {cap : Nat} {l : List Rec} :
    ∀ {st : List Rec × List String}, MergeInv st →
      (∀ r ∈ l, r.productId.toStr ∉ st.2) → (recIds l).Nodup →
      (∀ r ∈ l, r.productId.toStr ≠ "") → st.1.length + l.length ≤ cap →
      addUpTo cap st l = (st.1 ++ l, st.2 ++ recIds l) := by
  induction l with
  | nil => intro st _ _ _ _ _; simp [addUpTo_nil, recIds]
  | cons a t ih =>
    intro st hinv hnew hnd hne hlen
    rw [addUpTo_cons]
    have hc : ¬ cap ≤ st.1.length := by
      simp only [List.length_cons] at hlen
      omega
    rw [if_neg hc]
    have hna : ¬ ((decide (a.productId.toStr = "") || memStr st.2 a.productId.toStr) = true) := by
      simp only [Bool.or_eq_true, decide_eq_true_eq, memStr_iff]
      push_neg
      exact ⟨hne a (List.mem_cons_self a t), hnew a (List.mem_cons_self a t)⟩
    have hstep : addRec st a = (st.1 ++ [a], st.2 ++ [a.productId.toStr]) := by
      unfold addRec
      rw [if_neg hna]
    rw [hstep]
    have hinv2 : MergeInv (st.1 ++ [a], st.2 ++ [a.productId.toStr]) := by
      have := addRec_inv hinv a
      rwa [hstep] at this
    have hnd' := hnd
    rw [show recIds (a :: t) = a.productId.toStr :: recIds t from rfl, List.nodup_cons] at hnd'
    rw [ih hinv2 ?_ ?_ ?_ ?_]
    · simp [recIds]
    · intro r hr
      simp only [List.mem_append, List.mem_singleton]
      push_neg
      refine ⟨hnew r (List.mem_cons_of_mem _ hr), ?_⟩
      have hmem : r.productId.toStr ∈ recIds t := mem_recIds hr
      intro hcontra
      exact hnd'.1 (hcontra ▸ hmem)
    · exact hnd'.2
    · intro r hr; exact hne r (List.mem_cons_of_mem _ hr)
    · simp only [List.length_append, List.length_singleton, List.length_cons,
        List.length_nil] at hlen ⊢
      omega

/-- The two guaranteed history slots of the merge (head of each history list
when present). -/
def mergeRequired (hist : HistoryCandidates) : List Rec :=
  (match hist.time with | [] => ([] : List Rec) | t :: _ => [t]) ++
  (match hist.cart with | [] => ([] : List Rec) | c :: _ => [c])

/-- Merge state after phase 1 (required history slots). -/
def mergeSt0 (hist : HistoryCandidates) (limit : Nat) : List Rec × List String :=
  addUpTo limit ([], []) (mergeRequired hist)

/-- The history pool computed after phase 1. -/
def mergePool (hist : HistoryCandidates) (limit : Nat) : List Rec :=
  hist.all.filter (fun h => !(memStr (mergeSt0 hist limit).2 h.productId.toStr))

/-- Merge state after all four phases. -/
def mergeSt3 (recs : List Rec) (hist : HistoryCandidates) (limit : Nat) : List Rec × List String :=
  addUpTo limit
    (addUpTo limit
      (addUpTo (min limit (max (mergeSt0 hist limit).1.length (limit / 2)))
        (mergeSt0 hist limit) (mergePool hist limit))
      recs)
    (mergePool hist limit)

theorem merge_eq (recs : List Rec) (hist : HistoryCandidates) (limit : Nat) :
    mergeHistoryWithRecommendations recs hist limit = (mergeSt3 recs hist limit).1.take limit := rfl

theorem mem_head_list (l : List Rec) : ∀ {y : Rec},
    y ∈ (match l with | [] => ([] : List Rec) | t :: _ => [t]) → y ∈ l := by
  match l with
  | [] => intro y hy; exact absurd hy (List.not_mem_nil y)
  | t :: ts =>
    intro y hy
    simp only [List.mem_singleton] at hy
    subst hy
    exact List.mem_cons_self _ _

theorem merge_mem {recs : List Rec} {hist : HistoryCandidates} {limit : Nat} {x : Rec}
    (h : x ∈ mergeHistoryWithRecommendations recs hist limit) :
    x ∈ recs ∨ x ∈ hist.time ∨ x ∈ hist.cart ∨ x ∈ hist.all := by
  rw [merge_eq] at h
  have h3 := List.take_subset _ _ h
  have hpool : ∀ y : Rec, y ∈ mergePool hist limit → y ∈ hist.all :=
    fun y hy => List.mem_of_mem_filter hy
  rw [mergeSt3] at h3
  rcases addUpTo_fst_mem h3 with h4 | h4
  rotate_left
  · exact Or.inr (Or.inr (Or.inr (hpool _ h4)))
  rcases addUpTo_fst_mem h4 with h5 | h5
  rotate_left
  · exact Or.inl h5
  rcases addUpTo_fst_mem h5 with h6 | h6
  rotate_left
  · exact Or.inr (Or.inr (Or.inr (hpool _ h6)))
  rw [mergeSt0] at h6
  rcases addUpTo_fst_mem h6 with h7 | h7
  · exact absurd h7 (List.not_mem_nil x)
  · rw [mergeRequired] at h7
    rcases List.mem_append.1 h7 with h8 | h8
    · exact Or.inr (Or.inl (mem_head_list hist.time h8))
    · exact Or.inr (Or.inr (Or.inl (mem_head_list hist.cart h8)))

theorem mergeSt3_inv (recs : List Rec) (hist : HistoryCandidates) (limit : Nat) :
    MergeInv (mergeSt3 recs hist limit) := by
  rw [mergeSt3, mergeSt0]
  exact addUpTo_inv (addUpTo_inv (addUpTo_inv (addUpTo_inv mergeInv_nil)))

theorem merge_nodup (recs : List Rec) (hist : HistoryCandidates) (limit : Nat) :
    (recIds (mergeHistoryWithRecommendations recs hist limit)).Nodup := by
  rw [merge_eq, recIds_take]
  rcases mergeSt3_inv recs hist limit with ⟨hids, hnd, _⟩
  have hnd2 : (recIds (mergeSt3 recs hist limit).1).Nodup := hids ▸ hnd
  exact hnd2.sublist (List.take_sublist _ _)

theorem merge_len_le (recs : List Rec) (hist : HistoryCandidates) (limit : Nat) :
    (mergeHistoryWithRecommendations recs hist limit).length ≤ limit := by
  rw [merge_eq]
  simp

theorem merge_ids_ne {recs : List Rec} {hist : HistoryCandidates} {limit : Nat} {x : Rec}
    (h : x ∈ mergeHistoryWithRecommendations recs hist limit) : x.productId.toStr ≠ "" := by
  rw [merge_eq] at h
  have h3 := List.take_subset _ _ h
  rcases mergeSt3_inv recs hist limit with ⟨hids, _, hne⟩
  exact hne _ (hids ▸ mem_recIds h3)

theorem merge_len_ge (recs : List Rec) (hist : HistoryCandidates) (limit : Nat)
    (hnd : (recIds recs).Nodup) (hne : ∀ r ∈ recs, r.productId.toStr ≠ "") :
    min limit recs.length ≤ (mergeHistoryWithRecommendations recs hist limit).length := by
  rw [merge_eq]
  have hst0len : (mergeSt0 hist limit).1.length ≤ limit := by
    rw [mergeSt0]; exact addUpTo_cap (by simp)
  have hst1len : (addUpTo (min limit (max (mergeSt0 hist limit).1.length (limit / 2)))
      (mergeSt0 hist limit) (mergePool hist limit)).1.length ≤ limit :=
    le_trans (addUpTo_cap (le_min hst0len (le_max_left _ _))) (min_le_left _ _)
  have hst2len : (addUpTo limit
      (addUpTo (min limit (max (mergeSt0 hist limit).1.length (limit / 2)))
        (mergeSt0 hist limit) (mergePool hist limit)) recs).1.length ≤ limit :=
    addUpTo_cap hst1len
  have hst3len : (mergeSt3 recs hist limit).1.length ≤ limit := by
    rw [mergeSt3]; exact addUpTo_cap hst2len
  rw [List.length_take]
  rcases Nat.lt_or_ge (mergeSt3 recs hist limit).1.length limit with hcase | hcase
  · -- short final state: every recommendation id made it into the id set
    have hst2short : (addUpTo limit
        (addUpTo (min limit (max (mergeSt0 hist limit).1.length (limit / 2)))
          (mergeSt0 hist limit) (mergePool hist limit)) recs).1.length < limit := by
      have hmono : (addUpTo limit
          (addUpTo (min limit (max (mergeSt0 hist limit).1.length (limit / 2)))
            (mergeSt0 hist limit) (mergePool hist limit)) recs).1.length ≤
          (mergeSt3 recs hist limit).1.length := by
        rw [mergeSt3]; exact addUpTo_len_ge
      omega
    have hcomplete : ∀ r ∈ recs, r.productId.toStr ∈ (addUpTo limit
        (addUpTo (min limit (max (mergeSt0 hist limit).1.length (limit / 2)))
          (mergeSt0 hist limit) (mergePool hist limit)) recs).2 := by
      intro r hr
      exact addUpTo_complete hst2short r hr (hne r hr)
    have hsub : ∀ s ∈ recIds recs, s ∈ (mergeSt3 recs hist limit).2 := by
      intro s hs
      rcases List.mem_map.1 hs with ⟨r, hr, hrs⟩
      subst hrs
      rw [mergeSt3]
      exact addUpTo_ids_sub _ (hcomplete r hr)
    rcases mergeSt3_inv recs hist limit with ⟨hids, _, _⟩
    have hlenle : recs.length ≤ (mergeSt3 recs hist limit).1.length := by
      have h1 : (recIds recs).length ≤ (mergeSt3 recs hist limit).2.length :=
        (hnd.subperm hsub).length_le
      have h2 : (recIds recs).length = recs.length := List.length_map _ _
      have h3 : (mergeSt3 recs hist limit).2.length = (mergeSt3 recs hist limit).1.length := by
        rw [hids]; exact List.length_map _ _
      omega
    omega
  · omega

/-! ## Parser and padding lemmas -/

theorem recOfEntry_product (p : Product) (e : ModelEntry) : (recOfEntry p e).product = p := rfl

theorem recOfEntry_productId (p : Product) (e : ModelEntry) :
    (recOfEntry p e).productId = p.productId := rfl

theorem padRec_product (reason : String) (c : ℚ) (p : Product) : (padRec reason c p).product = p := rfl

theorem padRec_productId (reason : String) (c : ℚ) (p : Product) :
    (padRec reason c p).productId = p.productId := rfl

theorem parse_mem {entries : List ModelEntry} {cands : List Product} {r : Rec}
    (h : r ∈ parseGroqRecommendations entries cands) :
    ∃ e ∈ entries, ∃ p ∈ cands, r = recOfEntry p e := by
  rcases List.mem_filterMap.1 h with ⟨e, he, hmap⟩
  rcases Option.map_eq_some'.1 hmap with ⟨p, hfind, hre⟩
  exact ⟨e, he, p, List.mem_of_find?_eq_some hfind, hre.symm⟩

theorem parse_product_mem {entries : List ModelEntry} {cands : List Product} {r : Rec}
    (h : r ∈ parseGroqRecommendations entries cands) : r.product ∈ cands := by
  rcases parse_mem h with ⟨e, _, p, hp, hr⟩
  rw [hr, recOfEntry_product]
  exact hp

theorem parse_conf {entries : List ModelEntry} {cands : List Product} {r : Rec}
    (h : r ∈ parseGroqRecommendations entries cands) :
    ∃ e ∈ entries, r.confidence = e.confidence := by
  rcases parse_mem h with ⟨e, he, p, _, hr⟩
  exact ⟨e, he, by rw [hr]; rfl⟩

theorem recIds_map_mk {mk : Product → Rec} (hmk : ∀ p, (mk p).productId = p.productId)
    (l : List Product) : recIds (l.map mk) = l.map (fun p => p.productId.toStr) := by
  rw [recIds, List.map_map]
  apply List.map_congr_left
  intro p _
  simp [Function.comp, hmk]

theorem tierPad_mem {limit : Nat} {c : List Rec} {cands : List Product} {g : Product → Bool}
    {mk : Product → Rec} {x : Rec} (h : x ∈ tierPad limit c cands g mk) :
    x ∈ c ∨ ∃ p, p ∈ cands ∧ g p = true ∧ p.productId.toStr ∉ recIds c ∧ x = mk p := by
  unfold tierPad at h
  split at h
  · rcases List.mem_append.1 h with h | h
    · exact Or.inl h
    · rcases List.mem_map.1 h with ⟨p, hp, hx⟩
      have hp2 := List.take_subset _ _ hp
      have hp3 := List.mem_of_mem_filter hp2
      have hp4 := List.of_mem_filter hp2
      simp only [Bool.and_eq_true, Bool.not_eq_true'] at hp4
      exact Or.inr ⟨p, hp3, hp4.2, memStr_eq_false_iff.1 hp4.1, hx.symm⟩
  · exact Or.inl h

theorem tierPad_len_ge (limit : Nat) (c : List Rec) (cands : List Product) (g : Product → Bool)
    (mk : Product → Rec) : c.length ≤ (tierPad limit c cands g mk).length := by
  unfold tierPad
  split
  · simp
  · exact le_refl _

theorem tierPad_nodup {limit : Nat} {c : List Rec} {cands : List Product} {g : Product → Bool}
    {mk : Product → Rec} (hmk : ∀ p, (mk p).productId = p.productId)
    (hc : (recIds c).Nodup) (hcands : (idsP cands).Nodup) :
    (recIds (tierPad limit c cands g mk)).Nodup := by
  unfold tierPad
  split
  · rw [recIds_append, recIds_map_mk hmk]
    refine List.Nodup.append hc ?_ ?_
    · refine hcands.sublist ?_
      exact ((List.take_sublist _ _).trans (List.filter_sublist _)).map _
    · intro s hs1 hs2
      rcases List.mem_map.1 hs2 with ⟨p, hp, hps⟩
      have hp2 := List.of_mem_filter (List.take_subset _ _ hp)
      simp only [Bool.and_eq_true, Bool.not_eq_true'] at hp2
      exact (memStr_eq_false_iff.1 hp2.1) (hps ▸ hs1)
  · exact hc

theorem tierPad_prod_mem {limit : Nat} {c : List Rec} {cands : List Product} {g : Product → Bool}
    {mk : Product → Rec} (hmkp : ∀ p, (mk p).product = p)
    (hc : ∀ x ∈ c, x.product ∈ cands) :
    ∀ x ∈ tierPad limit c cands g mk, x.product ∈ cands := by
  intro x hx
  rcases tierPad_mem hx with hx | ⟨p, hp, _, _, hxp⟩
  · exact hc x hx
  · rw [hxp, hmkp]
    exact hp

theorem tierPad_complete {limit : Nat} {c : List Rec} {cands : List Product} {g : Product → Bool}
    {mk : Product → Rec} (hmk : ∀ p, (mk p).productId = p.productId)
    (hlen : (tierPad limit c cands g mk).length < limit) :
    ∀ p ∈ cands, g p = true → p.productId.toStr ∈ recIds (tierPad limit c cands g mk) := by
  intro p hp hg
  have hcshort : c.length < limit :=
    lt_of_le_of_lt (tierPad_len_ge limit c cands g mk) hlen
  unfold tierPad at hlen ⊢
  rw [if_pos hcshort] at hlen ⊢
  have hflen : (cands.filter (fun p =>
      !(memStr (recIds c) p.productId.toStr) && g p)).length < limit - c.length := by
    rw [List.length_append, List.length_map, List.length_take] at hlen
    omega
  have htake : (cands.filter (fun p =>
      !(memStr (recIds c) p.productId.toStr) && g p)).take (limit - c.length) =
      cands.filter (fun p => !(memStr (recIds c) p.productId.toStr) && g p) :=
    List.take_of_length_le (le_of_lt hflen)
  rw [htake, recIds_append, recIds_map_mk hmk]
  by_cases hin : p.productId.toStr ∈ recIds c
  · exact List.mem_append_left _ hin
  · refine List.mem_append_right _ ?_
    refine List.mem_map.2 ⟨p, ?_, rfl⟩
    refine List.mem_filter.2 ⟨hp, ?_⟩
    simp only [Bool.and_eq_true, Bool.not_eq_true']
    exact ⟨memStr_eq_false_iff.2 hin, hg⟩

/-- The candidate ids of any recommendation list reachable from candidates. -/
theorem ids_sub_of_prod_mem {l : List Rec} {cands : List Product}
    (h : ∀ x ∈ l, x.product ∈ cands) : ∀ s ∈ recIds l, s ∈ idsP cands := by
  intro s hs
  rcases List.mem_map.1 hs with ⟨r, hr, hrs⟩
  subst hrs
  exact mem_idsP (h r hr)

theorem length_le_of_nodup_sub {l : List Rec} {cands : List Product}
    (hnd : (recIds l).Nodup) (h : ∀ x ∈ l, x.product ∈ cands) : l.length ≤ cands.length := by
  have h1 : (recIds l).length ≤ (idsP cands).length :=
    (hnd.subperm (ids_sub_of_prod_mem h)).length_le
  rw [recIds, List.length_map] at h1
  rw [idsP, List.length_map] at h1
  exact h1

theorem padAndTruncate_mem {tokens : List String} {cands : List Product} {limit : Nat}
    {reason : String} {results base : List Rec} {x : Rec}
    (hb : ∀ r ∈ base, r ∈ results)
    (h : x ∈ padAndTruncate tokens cands limit reason results base) :
    x ∈ results ∨
    (∃ p ∈ cands, 0 < computeTypeScore tokens p.title ∧ x = padRec reason (65/100) p) ∨
    (∃ p ∈ cands, x = padRec ("You might also like") (1/2) p) := by
  unfold padAndTruncate at h
  split at h
  · exact Or.inl (hb x (List.take_subset _ _ h))
  · have h2 := List.take_subset _ _ h
    unfold padFrom at h2
    rcases tierPad_mem h2 with h3 | ⟨p, hp, _, _, hxp⟩
    rotate_left
    · exact Or.inr (Or.inr ⟨p, hp, hxp⟩)
    rcases tierPad_mem h3 with h4 | ⟨p, hp, hg, _, hxp⟩
    rotate_left
    · exact Or.inr (Or.inl ⟨p, hp, of_decide_eq_true hg, hxp⟩)
    rcases List.mem_append.1 h4 with h5 | h5
    · exact Or.inl (hb x h5)
    · exact Or.inl (List.mem_of_mem_filter h5)

/-- The count / distinctness contract of the ranking-and-padding tail: under a
duplicate-free parsed result list and a duplicate-free candidate catalog, the
output has pairwise distinct ids drawn from the candidates and its length is
exactly `min limit cands.length`. -/
theorem padAndTruncate_spec (tokens : List String) (cands : List Product) (limit : Nat)
    (reason : String) (results base : List Rec)
    (hb : List.Sublist base results)
    (hres : (recIds results).Nodup) (hcands : (idsP cands).Nodup)
    (hresCands : ∀ r ∈ results, r.product ∈ cands) :
    (recIds (padAndTruncate tokens cands limit reason results base)).Nodup ∧
    (∀ r ∈ padAndTruncate tokens cands limit reason results base, r.product ∈ cands) ∧
    (padAndTruncate tokens cands limit reason results base).length = min limit cands.length := by
  have hbmem : ∀ r ∈ base, r ∈ results := fun r hr => hb.subset hr
  have hbnd : (recIds base).Nodup := hres.sublist (hb.map _)
  have hbcands : ∀ r ∈ base, r.product ∈ cands := fun r hr => hresCands r (hbmem r hr)
  unfold padAndTruncate
  split
  case isTrue hlim =>
    have hcandlen : limit ≤ cands.length :=
      le_trans hlim (length_le_of_nodup_sub hbnd hbcands)
    refine ⟨?_, ?_, ?_⟩
    · rw [recIds_take]
      exact hbnd.sublist (List.take_sublist _ _)
    · intro r hr
      exact hbcands r (List.take_subset _ _ hr)
    · rw [List.length_take]
      omega
  case isFalse hlim =>
    -- combined0 = base ++ leftover parsed results
    set c0 := base ++ results.filter (fun r => !(memStr (recIds base) r.productId.toStr)) with hc0
    have hc0nd : (recIds c0).Nodup := by
      rw [hc0, recIds_append]
      refine List.Nodup.append hbnd ?_ ?_
      · exact hres.sublist ((List.filter_sublist _).map _)
      · intro s hs1 hs2
        rcases List.mem_map.1 hs2 with ⟨r, hr, hrs⟩
        have hr2 := List.of_mem_filter hr
        simp only [Bool.not_eq_true'] at hr2
        exact (memStr_eq_false_iff.1 hr2) (hrs ▸ hs1)
    have hc0cands : ∀ r ∈ c0, r.product ∈ cands := by
      intro r hr
      rcases List.mem_append.1 hr with hr | hr
      · exact hbcands r hr
      · exact hresCands r (List.mem_of_mem_filter hr)
    -- the two padding tiers
    have hmk2 : ∀ p, (padRec reason (65/100) p).productId = p.productId :=
      fun p => padRec_productId _ _ p
    have hmk3 : ∀ p, (padRec ("You might also like") (1/2) p).productId = p.productId :=
      fun p => padRec_productId _ _ p
    unfold padFrom
    set c1 := tierPad limit c0 cands
      (fun p => decide (0 < computeTypeScore tokens p.title)) (padRec reason (65/100)) with hc1
    set c2 := tierPad limit c1 cands (fun _ => true) (padRec ("You might also like") (1/2)) with hc2
    have hc1nd : (recIds c1).Nodup := tierPad_nodup hmk2 hc0nd hcands
    have hc2nd : (recIds c2).Nodup := tierPad_nodup hmk3 hc1nd hcands
    have hc1cands : ∀ r ∈ c1, r.product ∈ cands :=
      tierPad_prod_mem (fun p => padRec_product _ _ p) hc0cands
    have hc2cands : ∀ r ∈ c2, r.product ∈ cands :=
      tierPad_prod_mem (fun p => padRec_product _ _ p) hc1cands
    refine ⟨?_, ?_, ?_⟩
    · rw [recIds_take]
      exact hc2nd.sublist (List.take_sublist _ _)
    · intro r hr
      exact hc2cands r (List.take_subset _ _ hr)
    · rw [List.length_take]
      have hle : c2.length ≤ cands.length := length_le_of_nodup_sub hc2nd hc2cands
      rcases Nat.lt_or_ge c2.length limit with hshort | hlong
      · -- tier 3 exhausted every candidate
        have hall : ∀ p ∈ cands, p.productId.toStr ∈ recIds c2 := by
          intro p hp
          exact tierPad_complete hmk3 (hc2 ▸ hshort) p hp rfl
        have hsub : ∀ s ∈ idsP cands, s ∈ recIds c2 := by
          intro s hs
          rcases List.mem_map.1 hs with ⟨p, hp, hps⟩
          subst hps
          exact hall p hp
        have hge : cands.length ≤ c2.length := by
          have h1 : (idsP cands).length ≤ (recIds c2).length :=
            (hcands.subperm hsub).length_le
          rw [idsP, List.length_map] at h1
          rw [recIds, List.length_map] at h1
          exact h1
        omega
      · omega

/-! ## Similarity and fallback lemmas -/

theorem calculateSimilarity_nonneg (p1 p2 : Product) : 0 ≤ calculateSimilarity p1 p2 := by
  simp only [calculateSimilarity]
  have h20 : (0:ℚ) ≤ min (5 * (((p1.aiData.keywords.filter
      (fun k => p2.aiData.keywords.any (fun k2 => decide (k2 = k)))).length : ℕ) : ℚ)) 20 :=
    le_min (by positivity) (by norm_num)
  split_ifs <;> linarith

theorem calculateSimilarity_le (p1 p2 : Product) : calculateSimilarity p1 p2 ≤ 100 := by
  simp only [calculateSimilarity]
  have h20 : min (5 * (((p1.aiData.keywords.filter
      (fun k => p2.aiData.keywords.any (fun k2 => decide (k2 = k)))).length : ℕ) : ℚ)) 20 ≤ 20 :=
    min_le_right _ _
  split_ifs <;> linarith

theorem fallback_eq_found {ps : List Product} {pid : JsId} {cp : Product} (limit : Nat)
    (hfound : ps.find? (fun p => decide (p.productId = pid)) = some cp) :
    fallbackRecommendations ps pid limit =
      ((sortDesc (fun pr => pr.2) ((ps.filter
          (fun p => !(decide (p.productId.toStr = pid.toStr)))).map
          (fun p => (p, calculateSimilarity cp p)))).take limit).map (fun pr =>
        { product := pr.1, similarityScore := pr.2,
          aiReason := "Recommended based on product similarity",
          confidence := some (pr.2 / 100), recommendationType := "similar" }) := by
  unfold fallbackRecommendations
  rw [hfound]

theorem fallback_eq_notfound {ps : List Product} {pid : JsId} (limit : Nat)
    (hnone : ps.find? (fun p => decide (p.productId = pid)) = none) :
    fallbackRecommendations ps pid limit =
      (ps.take limit).map (fun p =>
        { product := p, aiReason := "You might also like this product", confidence := some (1/2),
          recommendationType := "similar" }) := by
  unfold fallbackRecommendations
  rw [hnone]

theorem fallback_found_mem {ps : List Product} {pid : JsId} {cp : Product} {limit : Nat} {r : Rec}
    (hfound : ps.find? (fun p => decide (p.productId = pid)) = some cp)
    (h : r ∈ fallbackRecommendations ps pid limit) :
    ∃ p ∈ ps.filter (fun p => !(decide (p.productId.toStr = pid.toStr))),
      r.product = p ∧ r.similarityScore = calculateSimilarity cp p ∧
      r.confidence = some (calculateSimilarity cp p / 100) := by
  rw [fallback_eq_found limit hfound] at h
  rcases List.mem_map.1 h with ⟨pr, hpr, hr⟩
  have hpr2 := mem_sortDesc.1 (List.take_subset _ _ hpr)
  rcases List.mem_map.1 hpr2 with ⟨p, hp, hpe⟩
  subst hpe
  exact ⟨p, hp, by rw [← hr], by rw [← hr], by rw [← hr]⟩

theorem nodup_recIds_map_of {β : Type} (mk : β → Rec) (pidOf : β → String)
    (hmk : ∀ b, (mk b).productId.toStr = pidOf b) (l : List β) (hnd : (l.map pidOf).Nodup) :
    (recIds (l.map mk)).Nodup := by
  rw [recIds, List.map_map]
  have hcong : l.map ((fun r : Rec => r.productId.toStr) ∘ mk) = l.map pidOf :=
    List.map_congr_left (fun b _ => hmk b)
  rw [hcong]
  exact hnd

theorem fallback_found_spec {ps : List Product} {pid : JsId} {cp : Product} (limit : Nat)
    (hfound : ps.find? (fun p => decide (p.productId = pid)) = some cp)
    (hids : (idsP ps).Nodup) :
    (recIds (fallbackRecommendations ps pid limit)).Nodup ∧
    (∀ r ∈ fallbackRecommendations ps pid limit,
      r.product ∈ ps.filter (fun p => !(decide (p.productId.toStr = pid.toStr)))) ∧
    (fallbackRecommendations ps pid limit).length =
      min limit (ps.filter (fun p => !(decide (p.productId.toStr = pid.toStr)))).length := by
  rw [fallback_eq_found limit hfound]
  refine ⟨?_, ?_, ?_⟩
  · apply nodup_recIds_map_of _ (fun pr : Product × ℚ => pr.1.productId.toStr)
    · intro b
      rfl
    have hperm : List.Perm
        ((sortDesc (fun pr : Product × ℚ => pr.2) ((ps.filter
          (fun p => !(decide (p.productId.toStr = pid.toStr)))).map
          (fun p => (p, calculateSimilarity cp p)))).map (fun pr => pr.1.productId.toStr))
        (((ps.filter (fun p => !(decide (p.productId.toStr = pid.toStr)))).map
          (fun p => (p, calculateSimilarity cp p))).map (fun pr => pr.1.productId.toStr)) :=
      (sortDesc_perm _ _).map _
    have hnd : (((ps.filter (fun p => !(decide (p.productId.toStr = pid.toStr)))).map
        (fun p => (p, calculateSimilarity cp p))).map (fun pr => pr.1.productId.toStr)).Nodup := by
      rw [List.map_map]
      exact hids.sublist (idsP_filter_sub ps _)
    have hnd2 := hperm.nodup_iff.2 hnd
    rw [List.map_take]
    exact hnd2.sublist (List.take_sublist _ _)
  · intro r hr
    rcases List.mem_map.1 hr with ⟨pr, hpr, hre⟩
    have hpr2 := mem_sortDesc.1 (List.take_subset _ _ hpr)
    rcases List.mem_map.1 hpr2 with ⟨p, hp, hpe⟩
    subst hpe
    rw [← hre]
    exact hp
  · rw [List.length_map, List.length_take, sortDesc_length, List.length_map]

theorem fallback_notfound_spec {ps : List Product} {pid : JsId} (limit : Nat)
    (hnone : ps.find? (fun p => decide (p.productId = pid)) = none) :
    ∀ r ∈ fallbackRecommendations ps pid limit,
      r.product ∈ ps ∧ r.confidence = some (1/2) := by
  intro r hr
  rw [fallback_eq_notfound limit hnone] at hr
  rcases List.mem_map.1 hr with ⟨p, hp, hre⟩
  exact ⟨by rw [← hre]; exact List.take_subset _ _ hp, by rw [← hre]⟩

theorem fallbackCart_eq_found {ps : List Product} {cartIds : List JsId} (limit : Nat)
    (hne : (ps.filter (fun p => cartIds.any (fun c => decide (c = p.productId)))).isEmpty = false) :
    fallbackCartRecommendations ps cartIds limit =
      ((sortDesc (fun pr => pr.2) ((ps.filter
          (fun p => !(cartIds.any (fun c => decide (c = p.productId))))).map
          (fun p => (p, (((ps.filter (fun p => cartIds.any (fun c => decide (c = p.productId)))).map
            (fun c => calculateSimilarity c p)).sum) /
            (((ps.filter (fun p => cartIds.any (fun c => decide (c = p.productId)))).length : ℕ) : ℚ))))).take
        limit).map (fun pr =>
        { product := pr.1, similarityScore := pr.2,
          aiReason := "Complements your cart items",
          confidence := some (min (pr.2 / 100) (9/10)), recommendationType := "complementary" }) := by
  unfold fallbackCartRecommendations
  simp only [hne, Bool.false_eq_true, if_false]

theorem fallbackCart_eq_notfound {ps : List Product} {cartIds : List JsId} (limit : Nat)
    (hemp : (ps.filter (fun p => cartIds.any (fun c => decide (c = p.productId)))).isEmpty = true) :
    fallbackCartRecommendations ps cartIds limit =
      (ps.take limit).map (fun p =>
        { product := p, aiReason := "You might also like this product", confidence := some (1/2),
          recommendationType := "complementary" }) := by
  unfold fallbackCartRecommendations
  simp only [hemp, if_true]

theorem fallbackCart_found_mem {ps : List Product} {cartIds : List JsId} {limit : Nat} {r : Rec}
    (hne : (ps.filter (fun p => cartIds.any (fun c => decide (c = p.productId)))).isEmpty = false)
    (h : r ∈ fallbackCartRecommendations ps cartIds limit) :
    ∃ p ∈ ps.filter (fun p => !(cartIds.any (fun c => decide (c = p.productId)))),
      r.product = p ∧
      r.similarityScore = (((ps.filter (fun p => cartIds.any (fun c => decide (c = p.productId)))).map
        (fun c => calculateSimilarity c p)).sum) /
        (((ps.filter (fun p => cartIds.any (fun c => decide (c = p.productId)))).length : ℕ) : ℚ) ∧
      r.confidence = some (min (r.similarityScore / 100) (9/10)) := by
  rw [fallbackCart_eq_found limit hne] at h
  rcases List.mem_map.1 h with ⟨pr, hpr, hr⟩
  have hpr2 := mem_sortDesc.1 (List.take_subset _ _ hpr)
  rcases List.mem_map.1 hpr2 with ⟨p, hp, hpe⟩
  subst hpe
  exact ⟨p, hp, by rw [← hr], by rw [← hr], by rw [← hr]⟩

/-! ## Engagement boost lemmas -/

theorem round4_one : round4 1 = 1 := by
  have h := round4_exact 10000
  norm_num at h
  simpa using h

theorem round4_half : round4 (1/2) = 1/2 := by
  have h := round4_exact 5000
  norm_num at h
  simpa using h

theorem boostOne_eq (m : List (String × ℚ)) (r : Rec) :
    boostOne m r =
      if lookupBoost m r.productId.toStr = 0 then r
      else
        { r with
          confidence := some (round4 (min (jsConfOrHalf r + lookupBoost m r.productId.toStr) 1)),
          engagementBoost := some (lookupBoost m r.productId.toStr) } := rfl

theorem boostOne_productId (m : List (String × ℚ)) (r : Rec) :
    (boostOne m r).productId = r.productId := by
  rw [boostOne_eq]
  split <;> rfl

theorem lookupBoost_nil (k : String) : lookupBoost [] k = 0 := rfl

theorem boostOne_nil (r : Rec) : boostOne [] r = r := by
  rw [boostOne_eq, lookupBoost_nil, if_pos rfl]

theorem applyBoosts_empty (recs : List Rec) : applyEngagementBoosts recs [] = recs := rfl

theorem applyBoosts_eq_of_ne {recs : List Rec} {m : List (String × ℚ)} (h : ¬ m.isEmpty = true) :
    applyEngagementBoosts recs m = sortDesc jsConfOr0 (recs.map (boostOne m)) := by
  unfold applyEngagementBoosts
  rw [if_neg h]

theorem applyBoosts_mem {recs : List Rec} {m : List (String × ℚ)} {x : Rec}
    (h : x ∈ applyEngagementBoosts recs m) : ∃ y ∈ recs, x = boostOne m y := by
  unfold applyEngagementBoosts at h
  split at h
  case isTrue hemp =>
    refine ⟨x, h, ?_⟩
    rw [List.isEmpty_iff.1 hemp, boostOne_nil]
  case isFalse =>
    rcases List.mem_map.1 (mem_sortDesc.1 h) with ⟨y, hy, hxy⟩
    exact ⟨y, hy, hxy.symm⟩

theorem applyBoosts_perm (recs : List Rec) (m : List (String × ℚ)) :
    List.Perm (applyEngagementBoosts recs m) (recs.map (boostOne m)) := by
  unfold applyEngagementBoosts
  split
  case isTrue hemp =>
    rw [List.isEmpty_iff.1 hemp]
    have : recs.map (boostOne []) = recs :=
      List.map_congr_left (fun r _ => boostOne_nil r) |>.trans (List.map_id recs)
    rw [this]
  case isFalse => exact sortDesc_perm _ _

theorem applyBoosts_ids_perm (recs : List Rec) (m : List (String × ℚ)) :
    List.Perm (recIds (applyEngagementBoosts recs m)) (recIds recs) := by
  have h1 := (applyBoosts_perm recs m).map (fun r => r.productId.toStr)
  have h2 : (recs.map (boostOne m)).map (fun r => r.productId.toStr) =
      recs.map (fun r => r.productId.toStr) := by
    rw [List.map_map]
    exact List.map_congr_left (fun r _ => by simp [Function.comp, boostOne_productId])
  show List.Perm ((applyEngagementBoosts recs m).map (fun r => r.productId.toStr))
    (recs.map (fun r => r.productId.toStr))
  rw [← h2]
  exact h1

theorem applyBoosts_length (recs : List Rec) (m : List (String × ℚ)) :
    (applyEngagementBoosts recs m).length = recs.length := by
  rw [(applyBoosts_perm recs m).length_eq, List.length_map]

theorem getBoosts_mem {rows : List EngagementRow} {e : String × ℚ}
    (h : e ∈ getEngagementBoosts rows) :
    ∃ row ∈ rows, 2 ≤ row.sessions ∧
      e = (row.productId, round4 (min row.avgTimeSeconds 300 / 300 * (15/100))) := by
  rcases List.mem_filterMap.1 h with ⟨row, hrow, hmap⟩
  by_cases hs : row.sessions < 2
  · rw [if_pos hs] at hmap
    cases hmap
  · rw [if_neg hs] at hmap
    exact ⟨row, hrow, le_of_not_lt hs, (Option.some_inj.1 hmap).symm⟩

theorem lookupBoost_mem_or_zero (m : List (String × ℚ)) (k : String) :
    lookupBoost m k = 0 ∨ ∃ e ∈ m, e.1 = k ∧ lookupBoost m k = e.2 := by
  unfold lookupBoost
  cases hl : (m.filter (fun e => decide (e.1 = k))).getLast? with
  | none => exact Or.inl rfl
  | some e =>
    right
    have he := List.mem_of_getLast?_eq_some hl
    have hp := List.of_mem_filter he
    simp only [decide_eq_true_eq] at hp
    exact ⟨e, List.mem_of_mem_filter he, hp, rfl⟩

theorem lookupBoost_nonneg {rows : List EngagementRow} {k : String}
    (hAvg : ∀ row ∈ rows, 0 ≤ row.avgTimeSeconds) :
    0 ≤ lookupBoost (getEngagementBoosts rows) k := by
  rcases lookupBoost_mem_or_zero (getEngagementBoosts rows) k with h | ⟨e, he, _, hv⟩
  · rw [h]
  · rw [hv]
    rcases getBoosts_mem he with ⟨row, hrow, _, hee⟩
    rw [hee]
    apply round4_nonneg
    have h1 := hAvg row hrow
    have hmin : 0 ≤ min row.avgTimeSeconds 300 := le_min h1 (by norm_num)
    have h2 : (0:ℚ) ≤ min row.avgTimeSeconds 300 / 300 := by positivity
    nlinarith

theorem lookupBoost_dec4 (rows : List EngagementRow) (k : String) :
    ∃ j : ℤ, lookupBoost (getEngagementBoosts rows) k = (j : ℚ) / 10000 := by
  rcases lookupBoost_mem_or_zero (getEngagementBoosts rows) k with h | ⟨e, he, _, hv⟩
  · exact ⟨0, by rw [h]; norm_num⟩
  · rcases getBoosts_mem he with ⟨row, _, _, hee⟩
    refine ⟨⌊min row.avgTimeSeconds 300 / 300 * (15/100) * 10000 + 1/2⌋, ?_⟩
    rw [hv, hee]
    rfl

theorem getBoosts_filter_eq {rows : List EngagementRow} {row : EngagementRow}
    (hnd : (rows.map (fun r => r.productId)).Nodup) (hrow : row ∈ rows) :
    (getEngagementBoosts rows).filter (fun e => decide (e.1 = row.productId)) =
      if row.sessions < 2 then []
      else [(row.productId, round4 (min row.avgTimeSeconds 300 / 300 * (15/100)))] := by
  induction rows with
  | nil => cases hrow
  | cons a t ih =>
    have hndt : (t.map (fun r => r.productId)).Nodup := (List.nodup_cons.1 hnd).2
    rcases List.mem_cons.1 hrow with heq | hrow2
    · subst heq
      have htfilter : (getEngagementBoosts t).filter (fun e => decide (e.1 = row.productId)) = [] := by
        apply List.filter_eq_nil_iff.2
        intro e he
        simp only [decide_eq_true_eq]
        rcases getBoosts_mem he with ⟨r2, hr2, _, he2⟩
        rw [he2]
        intro hcontra
        have hmem : row.productId ∈ t.map (fun r => r.productId) := by
          rw [← hcontra]
          exact List.mem_map_of_mem _ hr2
        exact (List.nodup_cons.1 hnd).1 hmem
      unfold getEngagementBoosts
      rw [List.filterMap_cons]
      by_cases hs : row.sessions < 2
      · rw [if_pos hs]
        unfold getEngagementBoosts at htfilter
        rw [htfilter, if_pos hs]
      · rw [if_neg hs, List.filter_cons,
          if_pos (show decide (row.productId = row.productId) = true from by simp)]
        unfold getEngagementBoosts at htfilter
        rw [htfilter, if_neg hs]
    · have hane : a.productId ≠ row.productId := by
        intro hcontra
        refine (List.nodup_cons.1 hnd).1 ?_
        rw [show (fun r : EngagementRow => r.productId) a = row.productId from hcontra]
        exact List.mem_map_of_mem _ hrow2
      unfold getEngagementBoosts
      rw [List.filterMap_cons]
      by_cases hs : a.sessions < 2
      · rw [if_pos hs]
        exact ih hndt hrow2
      · rw [if_neg hs, List.filter_cons,
          if_neg (show ¬ decide (a.productId = row.productId) = true from by
            simp only [decide_eq_true_eq]; exact hane)]
        exact ih hndt hrow2

theorem lookupBoost_row {rows : List EngagementRow} {row : EngagementRow}
    (hnd : (rows.map (fun r => r.productId)).Nodup) (hrow : row ∈ rows) :
    (2 ≤ row.sessions →
      lookupBoost (getEngagementBoosts rows) row.productId =
        round4 (min row.avgTimeSeconds 300 / 300 * (15/100))) ∧
    (row.sessions < 2 → lookupBoost (getEngagementBoosts rows) row.productId = 0) := by
  constructor
  · intro hs
    unfold lookupBoost
    rw [getBoosts_filter_eq hnd hrow, if_neg (not_lt.2 hs)]
    rfl
  · intro hs
    unfold lookupBoost
    rw [getBoosts_filter_eq hnd hrow, if_pos hs]
    rfl

/-- Elementwise monotonicity of the booster on confidences bounded by 1. -/
theorem boostOne_conf_ge {rows : List EngagementRow} {r : Rec}
    (hAvg : ∀ row ∈ rows, 0 ≤ row.avgTimeSeconds) (hc : jsConfOr0 r ≤ 1) :
    jsConfOr0 r ≤ jsConfOr0 (boostOne (getEngagementBoosts rows) r) := by
  rw [boostOne_eq]
  by_cases hb0 : lookupBoost (getEngagementBoosts rows) r.productId.toStr = 0
  · rw [if_pos hb0]
  · rw [if_neg hb0]
    have hv : jsConfOr0 { r with
        confidence := some (round4 (min (jsConfOrHalf r +
          lookupBoost (getEngagementBoosts rows) r.productId.toStr) 1)),
        engagementBoost := some (lookupBoost (getEngagementBoosts rows) r.productId.toStr) } =
        round4 (min (jsConfOrHalf r +
          lookupBoost (getEngagementBoosts rows) r.productId.toStr) 1) := rfl
    rw [hv]
    have hbnn : 0 ≤ lookupBoost (getEngagementBoosts rows) r.productId.toStr :=
      lookupBoost_nonneg hAvg
    rcases lookupBoost_dec4 rows r.productId.toStr with ⟨j, hj⟩
    have hbge : 1/10000 ≤ lookupBoost (getEngagementBoosts rows) r.productId.toStr :=
      round4_pos_ge j hj hb0 hbnn
    rcases hcr : r.confidence with _ | c
    · have h0 : jsConfOr0 r = 0 := by simp [jsConfOr0, hcr]
      rw [h0]
      apply round4_nonneg
      exact le_min (by have : jsConfOrHalf r = 1/2 := by simp [jsConfOrHalf, hcr]
                       rw [this]; linarith) (by norm_num)
    · by_cases hc0 : c = 0
      · have h0 : jsConfOr0 r = 0 := by simp [jsConfOr0, hcr, hc0]
        rw [h0]
        apply round4_nonneg
        exact le_min (by have : jsConfOrHalf r = 1/2 := by simp [jsConfOrHalf, hcr, hc0]
                         rw [this]; linarith) (by norm_num)
      · have h0 : jsConfOr0 r = c := by simp [jsConfOr0, hcr]
        have hhalf : jsConfOrHalf r = c := by simp [jsConfOrHalf, hcr, hc0]
        rw [h0, hhalf]
        by_cases hcb : c + lookupBoost (getEngagementBoosts rows) r.productId.toStr ≤ 1
        · rw [min_eq_left hcb]
          have := round4_lb (c + lookupBoost (getEngagementBoosts rows) r.productId.toStr)
          linarith
        · rw [min_eq_right (by linarith)]
          rw [round4_one]
          rw [h0] at hc
          exact hc

/-! ## History candidate lemmas -/

theorem lookupByStrId_some {ps : List Product} {k : String} {q : Product}
    (h : lookupByStrId ps k = some q) : q ∈ ps ∧ q.productId.toStr = k := by
  unfold lookupByStrId at h
  have hq := List.mem_of_getLast?_eq_some h
  have hp := List.of_mem_filter hq
  simp only [decide_eq_true_eq] at hp
  exact ⟨List.mem_of_mem_filter hq, hp⟩

theorem buildHistory_time_eq (ps : List Product) (prof : List ProfileItem)
    (ch : List CartHistItem) (excl : List String) :
    (buildHistoryCandidates ps prof ch excl).time =
      sortDesc (fun r => r.historyScore) (prof.filterMap (fun p =>
        if memStr excl p.productId.toStr then none
        else (lookupByStrId ps p.productId.toStr).map (fun product =>
          { product := product, aiReason := "Based on your browsing history",
            confidence := some (3/5), recommendationType := "complementary",
            historySource := some ("time"), historyScore := p.totalTimeSeconds }))) := rfl

theorem buildHistory_cart_eq (ps : List Product) (prof : List ProfileItem)
    (ch : List CartHistItem) (excl : List String) :
    (buildHistoryCandidates ps prof ch excl).cart =
      sortDesc (fun r => r.historyScore) (ch.filterMap (fun c =>
        if memStr excl c.productId then none
        else (lookupByStrId ps c.productId).map (fun product =>
          { product := product, aiReason := "Based on your past cart activity",
            confidence := some (31/50), recommendationType := "complementary",
            historySource := some ("cart"), historyScore := c.count }))) := rfl

theorem buildHistory_all_eq (ps : List Product) (prof : List ProfileItem)
    (ch : List CartHistItem) (excl : List String) :
    (buildHistoryCandidates ps prof ch excl).all =
      sortDesc (fun r => r.historyScore)
        ((buildHistoryCandidates ps prof ch excl).time ++
         (buildHistoryCandidates ps prof ch excl).cart) := rfl

theorem history_time_spec {ps : List Product} {prof : List ProfileItem} {ch : List CartHistItem}
    {excl : List String} {r : Rec} (h : r ∈ (buildHistoryCandidates ps prof ch excl).time) :
    r.product ∈ ps ∧ r.productId.toStr ∉ excl ∧ r.confidence = some (3/5) := by
  rw [buildHistory_time_eq] at h
  rcases List.mem_filterMap.1 (mem_sortDesc.1 h) with ⟨p, _, hmap⟩
  by_cases hexcl : memStr excl p.productId.toStr = true
  · rw [if_pos hexcl] at hmap
    cases hmap
  · rw [if_neg hexcl] at hmap
    rcases Option.map_eq_some'.1 hmap with ⟨q, hq, hr⟩
    rcases lookupByStrId_some hq with ⟨hqmem, hqid⟩
    subst hr
    refine ⟨hqmem, ?_, rfl⟩
    show q.productId.toStr ∉ excl
    rw [hqid]
    exact fun hmem => hexcl (memStr_iff.2 hmem)

theorem history_cart_spec {ps : List Product} {prof : List ProfileItem} {ch : List CartHistItem}
    {excl : List String} {r : Rec} (h : r ∈ (buildHistoryCandidates ps prof ch excl).cart) :
    r.product ∈ ps ∧ r.productId.toStr ∉ excl ∧ r.confidence = some (31/50) := by
  rw [buildHistory_cart_eq] at h
  rcases List.mem_filterMap.1 (mem_sortDesc.1 h) with ⟨c, _, hmap⟩
  by_cases hexcl : memStr excl c.productId = true
  · rw [if_pos hexcl] at hmap
    cases hmap
  · rw [if_neg hexcl] at hmap
    rcases Option.map_eq_some'.1 hmap with ⟨q, hq, hr⟩
    rcases lookupByStrId_some hq with ⟨hqmem, hqid⟩
    subst hr
    refine ⟨hqmem, ?_, rfl⟩
    show q.productId.toStr ∉ excl
    rw [hqid]
    exact fun hmem => hexcl (memStr_iff.2 hmem)

theorem history_all_spec {ps : List Product} {prof : List ProfileItem} {ch : List CartHistItem}
    {excl : List String} {r : Rec} (h : r ∈ (buildHistoryCandidates ps prof ch excl).all) :
    r.product ∈ ps ∧ r.productId.toStr ∉ excl ∧
      (r.confidence = some (3/5) ∨ r.confidence = some (31/50)) := by
  rw [buildHistory_all_eq] at h
  rcases List.mem_append.1 (mem_sortDesc.1 h) with h2 | h2
  · rcases history_time_spec h2 with ⟨h3, h4, h5⟩
    exact ⟨h3, h4, Or.inl h5⟩
  · rcases history_cart_spec h2 with ⟨h3, h4, h5⟩
    exact ⟨h3, h4, Or.inr h5⟩

theorem buildHistory_empty (ps : List Product) (excl : List String) :
    buildHistoryCandidates ps [] [] excl = ⟨[], [], []⟩ := rfl

/-! ## Analysis-stage lemmas -/

theorem filterBase_sublist (n : Nat) (tok : List String) (results : List Rec) :
    List.Sublist (filterBase n tok results) results := by
  unfold filterBase
  split
  · exact List.Sublist.refl _
  · split
    · exact List.filter_sublist _
    · exact List.Sublist.refl _

theorem cartFilterBase_sublist (n : Nat) (tok : List String) (results : List Rec) :
    List.Sublist (cartFilterBase n tok results) results := by
  unfold cartFilterBase
  split
  · exact List.Sublist.refl _
  · exact List.filter_sublist _

theorem analyzeWithGroq_eq (cp : Product) (cands : List Product) (limit : Nat)
    (prof : List ProfileItem) (ch : List CartHistItem) (entries : List ModelEntry) :
    analyzeWithGroq cp cands limit prof ch entries =
      padAndTruncate (getTitleTokens cp.title) cands limit ("Similar product you might like")
        (parseGroqRecommendations entries cands)
        (filterBase prof.length (getTitleTokens cp.title)
          (parseGroqRecommendations entries cands)) := rfl

theorem analyzeCartWithGroq_eq (carts : List Product) (cands : List Product) (limit : Nat)
    (prof : List ProfileItem) (ch : List CartHistItem) (entries : List ModelEntry) :
    analyzeCartWithGroq carts cands limit prof ch entries =
      padAndTruncate (cartTokensOf carts) cands limit ("Related to your cart items")
        (parseGroqRecommendations entries cands)
        (cartFilterBase prof.length (cartTokensOf carts)
          (parseGroqRecommendations entries cands)) := rfl

/-- Padding with an empty base behaves like padding with the full parsed list:
the tier-1 append restores every parsed result. -/
theorem padAndTruncate_nil_base (tokens : List String) (cands : List Product) (limit : Nat)
    (reason : String) (results : List Rec) :
    padAndTruncate tokens cands limit reason results [] =
      padAndTruncate tokens cands limit reason results results := by
  unfold padAndTruncate
  by_cases h0 : limit ≤ ([] : List Rec).length
  · have hl : limit = 0 := by simpa using h0
    subst hl
    rw [if_pos h0, if_pos (Nat.zero_le _)]
    simp
  · rw [if_neg h0]
    have hfilter_nil : results.filter (fun r => !(memStr (recIds ([] : List Rec)) r.productId.toStr)) =
        results := by
      apply List.filter_eq_self.2
      intro r _
      simp [memStr, recIds]
    rw [show (([] : List Rec) ++ results.filter
        (fun r => !(memStr (recIds ([] : List Rec)) r.productId.toStr))) = results by
      rw [hfilter_nil]; rfl]
    by_cases h1 : limit ≤ results.length
    · rw [if_pos h1]
      have hp : padFrom tokens cands limit reason results = results := by
        unfold padFrom tierPad
        rw [if_neg (not_lt.2 h1), if_neg (not_lt.2 h1)]
      rw [hp]
    · rw [if_neg h1]
      have hself : results.filter (fun r => !(memStr (recIds results) r.productId.toStr)) = [] := by
        apply List.filter_eq_nil_iff.2
        intro r hr
        have hmem : memStr (recIds results) r.productId.toStr = true :=
          memStr_iff.2 (mem_recIds hr)
        simp [hmem]
      rw [hself, List.append_nil]

/-- One tier appends a (possibly empty) block of freshly rendered candidates,
and only does so when the input is still short of the limit. -/
theorem tierPad_shape (limit : Nat) (c : List Rec) (cands : List Product) (g : Product → Bool)
    (mk : Product → Rec) :
    ∃ t, tierPad limit c cands g mk = c ++ t ∧
      (∀ r ∈ t, ∃ p ∈ cands, g p = true ∧ r = mk p) ∧
      (t ≠ [] → c.length < limit) := by
  unfold tierPad
  split
  case isTrue h =>
    refine ⟨_, rfl, ?_, fun _ => h⟩
    intro r hr
    rcases List.mem_map.1 hr with ⟨p, hp, hre⟩
    have hp2 := List.of_mem_filter (List.take_subset _ _ hp)
    simp only [Bool.and_eq_true] at hp2
    exact ⟨p, List.mem_of_mem_filter (List.take_subset _ _ hp), hp2.2, hre.symm⟩
  case isFalse h =>
    exact ⟨[], by simp, by simp, by simp⟩

/-- Structural decomposition of the ranking-and-padding tail: the output is the
truncation of the tier-1 list followed by the tier-2 and tier-3 synthetic pads,
with their fixed reasons and confidences, and a tier runs only when everything
before it is still short of `limit`. -/
theorem padAndTruncate_shape (tokens : List String) (cands : List Product) (limit : Nat)
    (reason : String) (results base : List Rec) (hb : ∀ r ∈ base, r ∈ results) :
    ∃ pre t2 t3,
      padAndTruncate tokens cands limit reason results base = (pre ++ t2 ++ t3).take limit ∧
      (∀ r ∈ pre, r ∈ results) ∧
      (∀ r ∈ t2, ∃ p ∈ cands, 0 < computeTypeScore tokens p.title ∧ r = padRec reason (65/100) p) ∧
      (∀ r ∈ t3, ∃ p ∈ cands, r = padRec ("You might also like") (1/2) p) ∧
      (t2 ≠ [] → pre.length < limit) ∧
      (t3 ≠ [] → pre.length + t2.length < limit) := by
  unfold padAndTruncate
  split
  case isTrue h =>
    refine ⟨base.take limit, [], [], ?_, fun r hr => hb r (List.take_subset _ _ hr),
      by simp, by simp, by simp, by simp⟩
    simp [List.take_take]
  case isFalse h =>
    have hc0 : ∀ r ∈ base ++ results.filter
        (fun r => !(memStr (recIds base) r.productId.toStr)), r ∈ results := by
      intro r hr
      rcases List.mem_append.1 hr with hr | hr
      · exact hb r hr
      · exact List.mem_of_mem_filter hr
    obtain ⟨t2, ht2eq, ht2mem, ht2short⟩ := tierPad_shape limit
      (base ++ results.filter (fun r => !(memStr (recIds base) r.productId.toStr))) cands
      (fun p => decide (0 < computeTypeScore tokens p.title)) (padRec reason (65/100))
    obtain ⟨t3, ht3eq, ht3mem, ht3short⟩ := tierPad_shape limit
      (tierPad limit
        (base ++ results.filter (fun r => !(memStr (recIds base) r.productId.toStr))) cands
        (fun p => decide (0 < computeTypeScore tokens p.title)) (padRec reason (65/100))) cands
      (fun _ => true) (padRec ("You might also like") (1/2))
    refine ⟨base ++ results.filter (fun r => !(memStr (recIds base) r.productId.toStr)),
      t2, t3, ?_, hc0, ?_, ?_, ht2short, ?_⟩
    · unfold padFrom
      rw [ht3eq, ht2eq, List.append_assoc]
    · intro r hr
      rcases ht2mem r hr with ⟨p, hp, hg, hre⟩
      exact ⟨p, hp, of_decide_eq_true hg, hre⟩
    · intro r hr
      rcases ht3mem r hr with ⟨p, hp, _, hre⟩
      exact ⟨p, hp, hre⟩
    · intro h3
      have := ht3short h3
      rw [ht2eq, List.length_append] at this
      exact this

/-- `mergeHistoryWithRecommendations` is the identity on a duplicate-free
recommendation list within the limit when there is no history at all. -/
theorem merge_empty_hist (recs : List Rec) (limit : Nat)
    (hnd : (recIds recs).Nodup) (hne : ∀ r ∈ recs, r.productId.toStr ≠ "")
    (hlen : recs.length ≤ limit) :
    mergeHistoryWithRecommendations recs ⟨[], [], []⟩ limit = recs := by
  rw [merge_eq]
  have h1 : mergeSt3 recs ⟨[], [], []⟩ limit = addUpTo limit ([], []) recs := by
    simp [mergeSt3, mergeSt0, mergePool, mergeRequired, addUpTo_nil]
  rw [h1, addUpTo_all mergeInv_nil (by intro r _; simp) hnd hne (by simpa using hlen)]
  simp [List.take_of_length_le hlen]

/-! ## Boost-stage lemmas -/

theorem boostStage_mem {merged : List Rec} {rows : List EngagementRow} {x : Rec}
    (h : x ∈ boostStage merged rows) :
    ∃ y ∈ merged, x = boostOne (getEngagementBoosts
      (rows.filter (fun row => memStr (recIds merged) row.productId))) y := by
  unfold boostStage at h
  exact applyBoosts_mem h

theorem boostStage_ids_perm (merged : List Rec) (rows : List EngagementRow) :
    List.Perm (recIds (boostStage merged rows)) (recIds merged) := by
  unfold boostStage
  exact applyBoosts_ids_perm _ _

theorem boostStage_length (merged : List Rec) (rows : List EngagementRow) :
    (boostStage merged rows).length = merged.length := by
  unfold boostStage
  exact applyBoosts_length _ _

/-! ## Recommendation-stage specification -/

theorem mem_others_id_ne {ps : List Product} {pid : JsId} {p : Product}
    (h : p ∈ ps.filter (fun p => !(decide (p.productId.toStr = pid.toStr)))) :
    p.productId.toStr ≠ pid.toStr := by
  have hp := List.of_mem_filter h
  simp only [Bool.not_eq_true', decide_eq_false_iff_not] at hp
  exact hp

/-- Stage-A contract of the single-product path: whichever branch supplies the
recommendations (Groq analysis, empty-result fallback or failure fallback), the
list has duplicate-free ids drawn from the other products and has length
exactly `min limit otherProducts.length`. -/
theorem upsellRecsStage_none (ps : List Product) (cp : Product) (pid : JsId) (limit : Nat)
    (prof : List ProfileItem) (ch : List CartHistItem) :
    upsellRecsStage ps cp pid limit prof ch none = fallbackRecommendations ps pid limit := rfl

theorem upsellRecsStage_some (ps : List Product) (cp : Product) (pid : JsId) (limit : Nat)
    (prof : List ProfileItem) (ch : List CartHistItem) (entries : List ModelEntry) :
    upsellRecsStage ps cp pid limit prof ch (some entries) =
      if (analyzeWithGroq cp
          (ps.filter (fun p => !(decide (p.productId.toStr = pid.toStr)))) limit prof ch
          entries).isEmpty then
        fallbackRecommendations ps pid limit
      else
        analyzeWithGroq cp
          (ps.filter (fun p => !(decide (p.productId.toStr = pid.toStr)))) limit prof ch
          entries := rfl

theorem cartRecsStage_none (ps : List Product) (cartIds : List JsId) (limit : Nat)
    (prof : List ProfileItem) (ch : List CartHistItem) :
    cartRecsStage ps cartIds limit prof ch none = fallbackCartRecommendations ps cartIds limit := rfl

theorem cartRecsStage_some (ps : List Product) (cartIds : List JsId) (limit : Nat)
    (prof : List ProfileItem) (ch : List CartHistItem) (entries : List ModelEntry) :
    cartRecsStage ps cartIds limit prof ch (some entries) =
      if (analyzeCartWithGroq
          (ps.filter (fun p => memStr (cartIds.map JsId.toStr) p.productId.toStr))
          (ps.filter (fun p => !(memStr (cartIds.map JsId.toStr) p.productId.toStr)))
          limit prof ch entries).isEmpty then
        fallbackCartRecommendations ps cartIds limit
      else
        analyzeCartWithGroq
          (ps.filter (fun p => memStr (cartIds.map JsId.toStr) p.productId.toStr))
          (ps.filter (fun p => !(memStr (cartIds.map JsId.toStr) p.productId.toStr)))
          limit prof ch entries := rfl

/-- Stage-A contract of the single-product path: whichever branch supplies the
recommendations (Groq analysis, empty-result fallback or failure fallback), the
list has duplicate-free ids drawn from the other products and has length
exactly `min limit otherProducts.length`. -/
theorem upsellRecsStage_spec (ps : List Product) (cp : Product) (pid : JsId) (limit : Nat)
    (prof : List ProfileItem) (ch : List CartHistItem) (groq : Option (List ModelEntry))
    (hids : (idsP ps).Nodup)
    (hcp : ps.find? (fun p => decide (p.productId = pid)) = some cp)
    (hparse : ∀ entries, groq = some entries →
      (recIds (parseGroqRecommendations entries
        (ps.filter (fun p => !(decide (p.productId.toStr = pid.toStr)))))).Nodup) :
    (recIds (upsellRecsStage ps cp pid limit prof ch groq)).Nodup ∧
    (∀ r ∈ upsellRecsStage ps cp pid limit prof ch groq,
      r.product ∈ ps.filter (fun p => !(decide (p.productId.toStr = pid.toStr)))) ∧
    (upsellRecsStage ps cp pid limit prof ch groq).length =
      min limit (ps.filter (fun p => !(decide (p.productId.toStr = pid.toStr)))).length := by
  cases groq with
  | none =>
    rw [upsellRecsStage_none]
    exact fallback_found_spec limit hcp hids
  | some entries =>
    have hcands : (idsP (ps.filter
        (fun p => !(decide (p.productId.toStr = pid.toStr))))).Nodup :=
      hids.sublist (idsP_filter_sub ps _)
    have hresCands : ∀ r ∈ parseGroqRecommendations entries
        (ps.filter (fun p => !(decide (p.productId.toStr = pid.toStr)))),
        r.product ∈ ps.filter (fun p => !(decide (p.productId.toStr = pid.toStr))) :=
      fun r h => parse_product_mem h
    have hana := padAndTruncate_spec (getTitleTokens cp.title)
      (ps.filter (fun p => !(decide (p.productId.toStr = pid.toStr)))) limit
      ("Similar product you might like")
      (parseGroqRecommendations entries
        (ps.filter (fun p => !(decide (p.productId.toStr = pid.toStr)))))
      (filterBase prof.length (getTitleTokens cp.title)
        (parseGroqRecommendations entries
          (ps.filter (fun p => !(decide (p.productId.toStr = pid.toStr))))))
      (filterBase_sublist prof.length _ _)
      (hparse entries rfl) hcands hresCands
    rw [← analyzeWithGroq_eq cp _ limit prof ch entries] at hana
    rw [upsellRecsStage_some]
    by_cases hre : (analyzeWithGroq cp
        (ps.filter (fun p => !(decide (p.productId.toStr = pid.toStr)))) limit prof ch
        entries).isEmpty = true
    · rw [if_pos hre]
      exact fallback_found_spec limit hcp hids
    · rw [if_neg hre]
      exact hana

theorem fallbackCart_found_spec {ps : List Product} {cartIds : List JsId} (limit : Nat)
    (hne : (ps.filter (fun p => cartIds.any (fun c => decide (c = p.productId)))).isEmpty = false)
    (hids : (idsP ps).Nodup) :
    (recIds (fallbackCartRecommendations ps cartIds limit)).Nodup ∧
    (∀ r ∈ fallbackCartRecommendations ps cartIds limit,
      r.product ∈ ps.filter (fun p => !(cartIds.any (fun c => decide (c = p.productId))))) ∧
    (fallbackCartRecommendations ps cartIds limit).length =
      min limit (ps.filter (fun p => !(cartIds.any (fun c => decide (c = p.productId))))).length := by
  rw [fallbackCart_eq_found limit hne]
  refine ⟨?_, ?_, ?_⟩
  · apply nodup_recIds_map_of _ (fun pr : Product × ℚ => pr.1.productId.toStr)
    · intro b
      rfl
    have hperm : List.Perm
        ((sortDesc (fun pr : Product × ℚ => pr.2) ((ps.filter
          (fun p => !(cartIds.any (fun c => decide (c = p.productId))))).map
          (fun p => (p, (((ps.filter (fun p => cartIds.any (fun c => decide (c = p.productId)))).map
            (fun c => calculateSimilarity c p)).sum) /
            (((ps.filter (fun p => cartIds.any (fun c => decide (c = p.productId)))).length : ℕ) : ℚ))))).map
          (fun pr => pr.1.productId.toStr))
        (((ps.filter (fun p => !(cartIds.any (fun c => decide (c = p.productId))))).map
          (fun p => (p, (((ps.filter (fun p => cartIds.any (fun c => decide (c = p.productId)))).map
            (fun c => calculateSimilarity c p)).sum) /
            (((ps.filter (fun p => cartIds.any (fun c => decide (c = p.productId)))).length : ℕ) : ℚ)))).map
          (fun pr => pr.1.productId.toStr)) :=
      (sortDesc_perm _ _).map _
    have hnd : (((ps.filter (fun p => !(cartIds.any (fun c => decide (c = p.productId))))).map
        (fun p => (p, (((ps.filter (fun p => cartIds.any (fun c => decide (c = p.productId)))).map
          (fun c => calculateSimilarity c p)).sum) /
          (((ps.filter (fun p => cartIds.any (fun c => decide (c = p.productId)))).length : ℕ) : ℚ)))).map
        (fun pr => pr.1.productId.toStr)).Nodup := by
      rw [List.map_map]
      exact hids.sublist (idsP_filter_sub ps _)
    have hnd2 := hperm.nodup_iff.2 hnd
    rw [List.map_take]
    exact hnd2.sublist (List.take_sublist _ _)
  · intro r hr
    rcases List.mem_map.1 hr with ⟨pr, hpr, hre⟩
    have hpr2 := mem_sortDesc.1 (List.take_subset _ _ hpr)
    rcases List.mem_map.1 hpr2 with ⟨p, hp, hpe⟩
    subst hpe
    rw [← hre]
    exact hp
  · rw [List.length_map, List.length_take, sortDesc_length, List.length_map]

/-! ## Pipeline unfolding lemmas -/

theorem findUpsell_eq_notfound (ps : List Product) (pid : JsId) (limit : Nat)
    (prof : List ProfileItem) (rawHist : List CartHistItem) (groq : Option (List ModelEntry))
    (rows : List EngagementRow)
    (h : ps.find? (fun p => decide (p.productId = pid)) = none) :
    findUpsellProductsCore ps pid limit prof rawHist groq rows =
      fallbackRecommendations ps pid limit := by
  unfold findUpsellProductsCore
  rw [h]

theorem findUpsell_eq_found (ps : List Product) (pid : JsId) (limit : Nat)
    (prof : List ProfileItem) (rawHist : List CartHistItem) (groq : Option (List ModelEntry))
    (rows : List EngagementRow) (cp : Product)
    (h : ps.find? (fun p => decide (p.productId = pid)) = some cp) :
    findUpsellProductsCore ps pid limit prof rawHist groq rows =
      if (ps.filter (fun p => !(decide (p.productId.toStr = pid.toStr)))).isEmpty then []
      else
        boostStage
          (mergeHistoryWithRecommendations
            (upsellRecsStage ps cp pid limit prof (enrichCartHistory ps rawHist) groq)
            (buildHistoryCandidates ps prof (enrichCartHistory ps rawHist) [pid.toStr])
            limit)
          rows := by
  unfold findUpsellProductsCore
  rw [h]

/-! ## Cache lemmas -/

theorem find?_filter_ne (l : Cache) (k key : String) (hk : k ≠ key) :
    (l.filter (fun e => !(decide (e.1 = key)))).find? (fun e => decide (e.1 = k)) =
      l.find? (fun e => decide (e.1 = k)) := by
  induction l with
  | nil => rfl
  | cons a t ih =>
    by_cases ha : a.1 = key
    · have hak : decide (a.1 = k) = false := by
        simp only [decide_eq_false_iff_not]
        intro hcontra
        exact hk (hcontra ▸ ha)
      rw [List.filter_cons, if_neg (by simp [ha]), List.find?_cons, hak, ih]
    · rw [List.filter_cons, if_pos (by simp [ha]), List.find?_cons, List.find?_cons]
      cases hak : decide (a.1 = k) with
      | true => rfl
      | false => exact ih

theorem find?_filter_self (l : Cache) (key : String) :
    (l.filter (fun e => !(decide (e.1 = key)))).find? (fun e => decide (e.1 = key)) = none := by
  apply List.find?_eq_none.2
  intro e he
  have hp := List.of_mem_filter he
  simp only [Bool.not_eq_true', decide_eq_false_iff_not] at hp
  simpa using hp

/-! ## Confidence-range lemmas -/

theorem jsConfOrHalf_nonneg {r : Rec} (hr : ∀ c, r.confidence = some c → 0 ≤ c ∧ c ≤ 1) :
    0 ≤ jsConfOrHalf r := by
  unfold jsConfOrHalf
  cases hrc : r.confidence with
  | none => norm_num
  | some c =>
    by_cases hc0 : c = 0
    · simp only [hc0, if_pos rfl]
      norm_num
    · simp only [if_neg hc0]
      exact (hr c hrc).1

theorem boostOne_confOK {rows : List EngagementRow} {r : Rec}
    (hAvg : ∀ row ∈ rows, 0 ≤ row.avgTimeSeconds)
    (hr : ∀ c, r.confidence = some c → 0 ≤ c ∧ c ≤ 1) :
    ∀ c, (boostOne (getEngagementBoosts rows) r).confidence = some c → 0 ≤ c ∧ c ≤ 1 := by
  intro c hc
  rw [boostOne_eq] at hc
  by_cases hb0 : lookupBoost (getEngagementBoosts rows) r.productId.toStr = 0
  · rw [if_pos hb0] at hc
    exact hr c hc
  · rw [if_neg hb0] at hc
    have hceq : round4 (min (jsConfOrHalf r +
        lookupBoost (getEngagementBoosts rows) r.productId.toStr) 1) = c :=
      Option.some_inj.1 hc
    rw [← hceq]
    constructor
    · apply round4_nonneg
      have hbnn : 0 ≤ lookupBoost (getEngagementBoosts rows) r.productId.toStr :=
        lookupBoost_nonneg hAvg
      have hhalf := jsConfOrHalf_nonneg hr
      exact le_min (by linarith) (by norm_num)
    · exact round4_le_one (min_le_right _ _)

theorem fallback_confOK (ps : List Product) (pid : JsId) (limit : Nat) :
    ∀ r ∈ fallbackRecommendations ps pid limit,
      ∀ c, r.confidence = some c → 0 ≤ c ∧ c ≤ 1 := by
  intro r hr c hc
  cases hf : ps.find? (fun p => decide (p.productId = pid)) with
  | none =>
    rw [fallback_eq_notfound limit hf] at hr
    rcases List.mem_map.1 hr with ⟨p, _, hre⟩
    rw [← hre] at hc
    have : (1:ℚ)/2 = c := Option.some_inj.1 hc
    rw [← this]
    norm_num
  | some cp =>
    rcases fallback_found_mem hf hr with ⟨p, _, _, _, hconf⟩
    rw [hconf] at hc
    have : calculateSimilarity cp p / 100 = c := Option.some_inj.1 hc
    rw [← this]
    have h1 := calculateSimilarity_nonneg cp p
    have h2 := calculateSimilarity_le cp p
    constructor <;> [positivity; linarith]

theorem fallbackCart_confOK (ps : List Product) (cartIds : List JsId) (limit : Nat) :
    ∀ r ∈ fallbackCartRecommendations ps cartIds limit,
      ∀ c, r.confidence = some c → 0 ≤ c ∧ c ≤ 1 := by
  intro r hr c hc
  by_cases hf : (ps.filter (fun p => cartIds.any (fun c => decide (c = p.productId)))).isEmpty = true
  · rw [fallbackCart_eq_notfound limit hf] at hr
    rcases List.mem_map.1 hr with ⟨p, _, hre⟩
    rw [← hre] at hc
    have : (1:ℚ)/2 = c := Option.some_inj.1 hc
    rw [← this]
    norm_num
  · have hf2 : (ps.filter
        (fun p => cartIds.any (fun c => decide (c = p.productId)))).isEmpty = false := by
      simp only [Bool.not_eq_true] at hf
      exact hf
    rcases fallbackCart_found_mem hf2 hr with ⟨p, _, _, hsim, hconf⟩
    rw [hconf] at hc
    have hceq : min (r.similarityScore / 100) (9/10) = c := Option.some_inj.1 hc
    rw [← hceq]
    have hsnn : 0 ≤ r.similarityScore := by
      rw [hsim]
      apply div_nonneg
      · apply List.sum_nonneg
        intro x hx
        rcases List.mem_map.1 hx with ⟨q, _, hxe⟩
        rw [← hxe]
        exact calculateSimilarity_nonneg q p
      · positivity
    constructor
    · exact le_min (by positivity) (by norm_num)
    · calc min (r.similarityScore / 100) (9/10) ≤ 9/10 := min_le_right _ _
        _ ≤ 1 := by norm_num

theorem upsellRecsStage_confOK (ps : List Product) (cp : Product) (pid : JsId) (limit : Nat)
    (prof : List ProfileItem) (ch : List CartHistItem) (groq : Option (List ModelEntry))
    (hE : ∀ entries, groq = some entries →
      ∀ e ∈ entries, ∀ c, e.confidence = some c → 0 ≤ c ∧ c ≤ 1) :
    ∀ r ∈ upsellRecsStage ps cp pid limit prof ch groq,
      ∀ c, r.confidence = some c → 0 ≤ c ∧ c ≤ 1 := by
  cases groq with
  | none =>
    rw [upsellRecsStage_none]
    exact fallback_confOK ps pid limit
  | some entries =>
    rw [upsellRecsStage_some]
    split
    · exact fallback_confOK ps pid limit
    · intro r hr c hc
      rw [analyzeWithGroq_eq] at hr
      rcases padAndTruncate_mem (fun x hx => (filterBase_sublist prof.length _ _).subset hx) hr
        with h | ⟨p, _, _, hre⟩ | ⟨p, _, hre⟩
      · rcases parse_conf h with ⟨e, he, hce⟩
        rw [hce] at hc
        exact hE entries rfl e he c hc
      · rw [hre] at hc
        have : (65:ℚ)/100 = c := Option.some_inj.1 hc
        rw [← this]
        norm_num
      · rw [hre] at hc
        have : (1:ℚ)/2 = c := Option.some_inj.1 hc
        rw [← this]
        norm_num

theorem cartRecsStage_confOK (ps : List Product) (cartIds : List JsId) (limit : Nat)
    (prof : List ProfileItem) (ch : List CartHistItem) (groq : Option (List ModelEntry))
    (hE : ∀ entries, groq = some entries →
      ∀ e ∈ entries, ∀ c, e.confidence = some c → 0 ≤ c ∧ c ≤ 1) :
    ∀ r ∈ cartRecsStage ps cartIds limit prof ch groq,
      ∀ c, r.confidence = some c → 0 ≤ c ∧ c ≤ 1 := by
  cases groq with
  | none =>
    rw [cartRecsStage_none]
    exact fallbackCart_confOK ps cartIds limit
  | some entries =>
    rw [cartRecsStage_some]
    split
    · exact fallbackCart_confOK ps cartIds limit
    · intro r hr c hc
      rw [analyzeCartWithGroq_eq] at hr
      rcases padAndTruncate_mem (fun x hx => (cartFilterBase_sublist prof.length _ _).subset hx) hr
        with h | ⟨p, _, _, hre⟩ | ⟨p, _, hre⟩
      · rcases parse_conf h with ⟨e, he, hce⟩
        rw [hce] at hc
        exact hE entries rfl e he c hc
      · rw [hre] at hc
        have : (65:ℚ)/100 = c := Option.some_inj.1 hc
        rw [← this]
        norm_num
      · rw [hre] at hc
        have : (1:ℚ)/2 = c := Option.some_inj.1 hc
        rw [← this]
        norm_num

theorem merge_confOK {recs : List Rec} {hist : HistoryCandidates} {limit : Nat}
    (ps : List Product) (prof : List ProfileItem) (ch : List CartHistItem) (excl : List String)
    (hh : hist = buildHistoryCandidates ps prof ch excl)
    (hrecs : ∀ r ∈ recs, ∀ c, r.confidence = some c → 0 ≤ c ∧ c ≤ 1) :
    ∀ r ∈ mergeHistoryWithRecommendations recs hist limit,
      ∀ c, r.confidence = some c → 0 ≤ c ∧ c ≤ 1 := by
  intro r hr c hc
  rcases merge_mem hr with h | h | h | h
  · exact hrecs r h c hc
  · rw [hh] at h
    have := (history_time_spec h).2.2
    rw [this] at hc
    have hceq : (3:ℚ)/5 = c := Option.some_inj.1 hc
    rw [← hceq]
    norm_num
  · rw [hh] at h
    have := (history_cart_spec h).2.2
    rw [this] at hc
    have hceq : (31:ℚ)/50 = c := Option.some_inj.1 hc
    rw [← hceq]
    norm_num
  · rw [hh] at h
    rcases (history_all_spec h).2.2 with hcv | hcv <;> rw [hcv] at hc
    · have hceq : (3:ℚ)/5 = c := Option.some_inj.1 hc
      rw [← hceq]
      norm_num
    · have hceq : (31:ℚ)/50 = c := Option.some_inj.1 hc
      rw [← hceq]
      norm_num

attribute [local semireducible] Rat.add Rat.mul Rat.inv Rat.sub

/-! ## C1 -/

/-- C1, counterexample: a shop with two products other than the subject, a
successful call with `limit = 2`, and a remote response that names the same
candidate twice.  The duplicate parsed entries satisfy the tier-1 length check
inside `analyzeWithGroq`, so no padding happens, and the merge step then
deduplicates them, returning one recommendation instead of
`min(2, 2) = 2`. -/
theorem c1_counterexample :
    (findUpsellProductsCore
      [⟨.num 1, "Gold Bracelet", {}⟩, ⟨.num 2, "Silver Bracelet", {}⟩,
       ⟨.num 3, "Pearl Bracelet", {}⟩]
      (.num 1) 2 [] []
      (some [⟨.num 2, "m", some (8/10), "similar"⟩, ⟨.num 2, "m", some (8/10), "similar"⟩])
      []).length ≠
    min 2 (([⟨.num 1, "Gold Bracelet", {}⟩, ⟨.num 2, "Silver Bracelet", {}⟩,
       ⟨.num 3, "Pearl Bracelet", {}⟩] : List Product).filter
        (fun p => !(decide (p.productId.toStr = (JsId.num 1).toStr)))).length := by
  decide

/-- C1, amended: for a catalog with unique non-empty ids containing the subject
product, a call of `findUpsellProducts` returns a list of pairwise-distinct
product ids never containing the subject, of length exactly
`min limit otherProducts.length` — provided the parsed remote entries resolve
to pairwise-distinct products (in particular whenever the remote call fails).
The original claim is false when the model output repeats a candidate id
(`c1_counterexample`). -/
theorem c1_amended (ps : List Product) (pid : JsId) (limit : Nat)
    (prof : List ProfileItem) (rawHist : List CartHistItem)
    (groq : Option (List ModelEntry)) (rows : List EngagementRow)
    (hids : (idsP ps).Nodup)
    (hne : ∀ p ∈ ps, p.productId.toStr ≠ "")
    (hfound : ∃ cp, ps.find? (fun p => decide (p.productId = pid)) = some cp)
    (hparse : ∀ entries, groq = some entries →
      (recIds (parseGroqRecommendations entries
        (ps.filter (fun p => !(decide (p.productId.toStr = pid.toStr)))))).Nodup) :
    (recIds (findUpsellProductsCore ps pid limit prof rawHist groq rows)).Nodup ∧
    (∀ r ∈ findUpsellProductsCore ps pid limit prof rawHist groq rows,
      r.productId.toStr ≠ pid.toStr) ∧
    (findUpsellProductsCore ps pid limit prof rawHist groq rows).length =
      min limit (ps.filter (fun p => !(decide (p.productId.toStr = pid.toStr)))).length := by
  rcases hfound with ⟨cp, hcp⟩
  rw [findUpsell_eq_found ps pid limit prof rawHist groq rows cp hcp]
  by_cases hemp : (ps.filter (fun p => !(decide (p.productId.toStr = pid.toStr)))).isEmpty = true
  · rw [if_pos hemp]
    have h0 : (ps.filter (fun p => !(decide (p.productId.toStr = pid.toStr)))).length = 0 := by
      rw [List.isEmpty_iff.1 hemp]
      rfl
    refine ⟨by simp [recIds], by simp, by simp [h0]⟩
  · rw [if_neg hemp]
    obtain ⟨hA1, hA2, hA3⟩ := upsellRecsStage_spec ps cp pid limit prof
      (enrichCartHistory ps rawHist) groq hids hcp hparse
    set recs := upsellRecsStage ps cp pid limit prof (enrichCartHistory ps rawHist) groq with hrecs
    set hist := buildHistoryCandidates ps prof (enrichCartHistory ps rawHist) [pid.toStr] with hhist
    set merged := mergeHistoryWithRecommendations recs hist limit with hmerged
    have hMprod : ∀ x ∈ merged,
        x.product ∈ ps.filter (fun p => !(decide (p.productId.toStr = pid.toStr))) := by
      intro x hx
      have hother : x.product ∈ ps → x.productId.toStr ∉ ([pid.toStr] : List String) →
          x.product ∈ ps.filter (fun p => !(decide (p.productId.toStr = pid.toStr))) := by
        intro hp hid
        refine List.mem_filter.2 ⟨hp, ?_⟩
        simp only [Bool.not_eq_true', decide_eq_false_iff_not]
        intro hcontra
        exact hid (by
          rw [show x.productId.toStr = x.product.productId.toStr from rfl, hcontra]
          exact List.mem_singleton_self _)
      rcases merge_mem hx with hx | hx | hx | hx
      · exact hA2 x hx
      · rcases history_time_spec hx with ⟨hp, hid, _⟩
        exact hother hp hid
      · rcases history_cart_spec hx with ⟨hp, hid, _⟩
        exact hother hp hid
      · rcases history_all_spec hx with ⟨hp, hid, _⟩
        exact hother hp hid
    have hMne : ∀ x ∈ merged, x.productId.toStr ≠ pid.toStr := by
      intro x hx
      exact mem_others_id_ne (hMprod x hx)
    have hMnodup := merge_nodup recs hist limit
    have hMle2 : merged.length ≤
        (ps.filter (fun p => !(decide (p.productId.toStr = pid.toStr)))).length :=
      length_le_of_nodup_sub hMnodup hMprod
    have hMle : merged.length ≤ limit := merge_len_le recs hist limit
    have hRecNe : ∀ r ∈ recs, r.productId.toStr ≠ "" := by
      intro r hr
      have h2 : r.product ∈ ps := List.mem_of_mem_filter (hA2 r hr)
      exact hne r.product h2
    have hMge := merge_len_ge recs hist limit hA1 hRecNe
    rw [hA3, ← hmerged, ← Nat.min_assoc, Nat.min_self] at hMge
    have hMlen : merged.length =
        min limit (ps.filter (fun p => !(decide (p.productId.toStr = pid.toStr)))).length := by
      omega
    refine ⟨?_, ?_, ?_⟩
    · exact (boostStage_ids_perm merged rows).nodup_iff.2 hMnodup
    · intro r hr
      rcases boostStage_mem hr with ⟨y, hy, hre⟩
      rw [hre, show (boostOne (getEngagementBoosts
        (rows.filter (fun row => memStr (recIds merged) row.productId))) y).productId.toStr =
        y.productId.toStr by rw [boostOne_productId]]
      exact hMne y hy
    · rw [boostStage_length, hMlen]

/-- C1, witness: a two-product catalog with a failed remote call returns
exactly one distinct recommendation for the only other product. -/
theorem c1_witness :
    (idsP [(⟨.num 1, "Gold Bracelet", {}⟩ : Product), ⟨.num 2, "Silver Bracelet", {}⟩]).Nodup ∧
    ((recIds (findUpsellProductsCore
        [⟨.num 1, "Gold Bracelet", {}⟩, ⟨.num 2, "Silver Bracelet", {}⟩]
        (.num 1) 1 [] [] none [])).Nodup ∧
      (∀ r ∈ findUpsellProductsCore
          [⟨.num 1, "Gold Bracelet", {}⟩, ⟨.num 2, "Silver Bracelet", {}⟩]
          (.num 1) 1 [] [] none [],
        r.productId.toStr ≠ (JsId.num 1).toStr) ∧
      (findUpsellProductsCore
        [⟨.num 1, "Gold Bracelet", {}⟩, ⟨.num 2, "Silver Bracelet", {}⟩]
        (.num 1) 1 [] [] none []).length =
        min 1 (([⟨.num 1, "Gold Bracelet", {}⟩, ⟨.num 2, "Silver Bracelet", {}⟩] :
          List Product).filter
            (fun p => !(decide (p.productId.toStr = (JsId.num 1).toStr)))).length) :=
  ⟨by decide,
    c1_amended [⟨.num 1, "Gold Bracelet", {}⟩, ⟨.num 2, "Silver Bracelet", {}⟩]
      (.num 1) 1 [] [] none [] (by decide) (by decide)
      ⟨⟨.num 1, "Gold Bracelet", {}⟩, by decide⟩
      (fun entries h => by cases h)⟩

/-! ## C2 -/

/-- C2, counterexample: with a non-empty browsing profile, a failed remote call
does NOT reproduce the fallback ranking — the history merge step forces the
most-browsed product to the front, so the result order differs from
`fallbackRecommendations`. -/
theorem c2_counterexample :
    recIds (findUpsellProductsCore
      [⟨.num 1, "Gold Bracelet", {}⟩, ⟨.num 2, "Silver Bracelet", {}⟩,
       ⟨.num 3, "Pearl Necklace", {}⟩]
      (.num 1) 2 [⟨.num 3, "Pearl Necklace", 100⟩] [] none []) ≠
    recIds (fallbackRecommendations
      [⟨.num 1, "Gold Bracelet", {}⟩, ⟨.num 2, "Silver Bracelet", {}⟩,
       ⟨.num 3, "Pearl Necklace", {}⟩]
      (.num 1) 2) := by
  decide

/-- C2, amended: for an ANONYMOUS request — no browsing profile, no cart
history, no engagement rows — a failed remote call returns exactly the
Fallback Ranking Engine's list, for both the single-product and the cart
pipelines (the cart half additionally assumes the supplied cart ids match the
stored ids consistently under strict and `String`-normalized comparison, e.g.
when all ids are of one JavaScript type).  The unrestricted claim is false:
a browsing profile perturbs the fallback order through the history merge
(`c2_counterexample`). -/
theorem c2_amended (ps : List Product) (pid : JsId) (cartIds : List JsId) (limit : Nat)
    (hids : (idsP ps).Nodup)
    (hne : ∀ p ∈ ps, p.productId.toStr ≠ "")
    (hcons : ∀ p ∈ ps, memStr (cartIds.map JsId.toStr) p.productId.toStr =
      cartIds.any (fun c => decide (c = p.productId))) :
    findUpsellProductsCore ps pid limit [] [] none [] =
      fallbackRecommendations ps pid limit ∧
    findCartUpsellProductsCore ps cartIds limit [] [] none [] =
      fallbackCartRecommendations ps cartIds limit := by
  constructor
  · cases hfind : ps.find? (fun p => decide (p.productId = pid)) with
    | none => exact findUpsell_eq_notfound ps pid limit [] [] none [] hfind
    | some cp =>
      rw [findUpsell_eq_found ps pid limit [] [] none [] cp hfind]
      by_cases hemp : (ps.filter (fun p => !(decide (p.productId.toStr = pid.toStr)))).isEmpty = true
      · rw [if_pos hemp, fallback_eq_found limit hfind, List.isEmpty_iff.1 hemp]
        simp [sortDesc]
      · rw [if_neg hemp]
        obtain ⟨hB1, hB2, hB3⟩ := fallback_found_spec limit hfind hids
        have hch : enrichCartHistory ps [] = [] := rfl
        rw [upsellRecsStage_none, hch, buildHistory_empty,
          merge_empty_hist (fallbackRecommendations ps pid limit) limit hB1
            (fun r hr => hne r.product (List.mem_of_mem_filter (hB2 r hr)))
            (by rw [hB3]; exact Nat.min_le_left _ _)]
        rfl
  · by_cases h1 : (ps.filter
        (fun p => memStr (cartIds.map JsId.toStr) p.productId.toStr)).isEmpty = true
    · unfold findCartUpsellProductsCore
      rw [if_pos h1]
    · have hfeq : ps.filter (fun p => cartIds.any (fun c => decide (c = p.productId))) =
          ps.filter (fun p => memStr (cartIds.map JsId.toStr) p.productId.toStr) :=
        List.filter_congr (fun p hp => (hcons p hp).symm)
      have hceq : ps.filter (fun p => !(cartIds.any (fun c => decide (c = p.productId)))) =
          ps.filter (fun p => !(memStr (cartIds.map JsId.toStr) p.productId.toStr)) :=
        List.filter_congr (fun p hp => by rw [hcons p hp])
      have hstrict : (ps.filter
          (fun p => cartIds.any (fun c => decide (c = p.productId)))).isEmpty = false := by
        rw [hfeq]
        simp only [Bool.not_eq_true] at h1
        exact h1
      by_cases h2 : (ps.filter
          (fun p => !(memStr (cartIds.map JsId.toStr) p.productId.toStr))).isEmpty = true
      · unfold findCartUpsellProductsCore
        rw [if_neg (by simp [h1]), if_pos h2, fallbackCart_eq_found limit hstrict, hceq,
          List.isEmpty_iff.1 h2]
        simp [sortDesc]
      · unfold findCartUpsellProductsCore
        rw [if_neg (by simp [h1]), if_neg (by simp [h2])]
        obtain ⟨hB1, hB2, hB3⟩ := fallbackCart_found_spec limit hstrict hids
        have hch : enrichCartHistory ps
            (([] : List CartHistItem).filter
              (fun ch => !(memStr (cartIds.map JsId.toStr) ch.productId))) = [] := rfl
        rw [cartRecsStage_none, hch, buildHistory_empty,
          merge_empty_hist (fallbackCartRecommendations ps cartIds limit) limit hB1
            (fun r hr => hne r.product (List.mem_of_mem_filter (hB2 r hr)))
            (by rw [hB3]; exact Nat.min_le_left _ _)]
        rfl

/-- C2, witness: a uniformly-numeric two-product shop, anonymous user, failed
remote call — both pipelines coincide with their fallbacks. -/
theorem c2_witness :
    findUpsellProductsCore
        [⟨.num 1, "Gold Bracelet", {}⟩, ⟨.num 2, "Silver Bracelet", {}⟩]
        (.num 1) 1 [] [] none [] =
      fallbackRecommendations
        [⟨.num 1, "Gold Bracelet", {}⟩, ⟨.num 2, "Silver Bracelet", {}⟩] (.num 1) 1 ∧
    findCartUpsellProductsCore
        [⟨.num 1, "Gold Bracelet", {}⟩, ⟨.num 2, "Silver Bracelet", {}⟩]
        [.num 1] 1 [] [] none [] =
      fallbackCartRecommendations
        [⟨.num 1, "Gold Bracelet", {}⟩, ⟨.num 2, "Silver Bracelet", {}⟩] [.num 1] 1 :=
  c2_amended
    [⟨.num 1, "Gold Bracelet", {}⟩, ⟨.num 2, "Silver Bracelet", {}⟩]
    (.num 1) [.num 1] 1 (by decide) (by decide) (by decide)

/-! ## C3 -/

/-- C3, code bug: the claimed invariant — a cart request never returns one of
the subject cart products — fails on the fallback path with mixed id types.
The cart `[1, "2"]` (a number and a string, as a storefront that stringifies
some ids produces) against a catalog with numeric ids `1, 2, 3`: the entry
guard of `findCartUpsellProducts` resolves the cart by `String`-normalized
comparison, so the call proceeds, but `fallbackCartRecommendations` matches
`cartProductIds.includes(p.productId)` and the Mongo `$in` strictly, so the
cart product stored as number `2` is NOT excluded and is returned as a
recommendation of itself. -/
theorem c3_code_bug :
    ∃ r ∈ findCartUpsellProductsCore
      [⟨.num 1, "Gold Bracelet", {}⟩, ⟨.num 2, "Silver Bracelet", {}⟩,
       ⟨.num 3, "Pearl Necklace", {}⟩]
      [.num 1, .str "2"] 4 [] [] none [],
      memStr (([JsId.num 1, JsId.str "2"]).map JsId.toStr) r.productId.toStr = true := by
  decide

/-! ## C4 -/

/-- C4, counterexample: a request with NO browsing profile but a non-empty
cart history still applies the same-type filter — the parsed results are
reordered/filtered against the unfiltered behaviour the claim promises when
"a profile exists (browsing history or cart history)". -/
theorem c4_counterexample :
    analyzeWithGroq (⟨.num 1, "Gold Bracelet", {}⟩)
      [⟨.num 2, "Pearl Necklace", {}⟩, ⟨.num 3, "Silver Bracelet", {}⟩] 2
      [] [⟨"5", 1⟩]
      [⟨.num 2, "r", some (9/10), "similar"⟩, ⟨.num 3, "r", some (8/10), "similar"⟩] ≠
    padAndTruncate (getTitleTokens ("Gold Bracelet"))
      [⟨.num 2, "Pearl Necklace", {}⟩, ⟨.num 3, "Silver Bracelet", {}⟩] 2
      ("Similar product you might like")
      (parseGroqRecommendations
        [⟨.num 2, "r", some (9/10), "similar"⟩, ⟨.num 3, "r", some (8/10), "similar"⟩]
        [⟨.num 2, "Pearl Necklace", {}⟩, ⟨.num 3, "Silver Bracelet", {}⟩])
      (parseGroqRecommendations
        [⟨.num 2, "r", some (9/10), "similar"⟩, ⟨.num 3, "r", some (8/10), "similar"⟩]
        [⟨.num 2, "Pearl Necklace", {}⟩, ⟨.num 3, "Silver Bracelet", {}⟩]) := by
  decide

/-- C4, amended: the same-type filter is governed by the browsing profile
(`userProfile`) ALONE.  Cart history never influences the analysis at all;
with a non-empty profile no filtering is applied; with an empty profile the
single-product path filters with an empty-filter fallback and the cart path
filters without one — regardless of cart history.  The claim's clause "or cart
history" is wrong (`c4_counterexample`). -/
theorem c4_amended (cp : Product) (carts cands : List Product) (limit : Nat)
    (prof : List ProfileItem) (ch ch2 : List CartHistItem) (entries : List ModelEntry) :
    (analyzeWithGroq cp cands limit prof ch entries =
      analyzeWithGroq cp cands limit prof ch2 entries) ∧
    (analyzeCartWithGroq carts cands limit prof ch entries =
      analyzeCartWithGroq carts cands limit prof ch2 entries) ∧
    (0 < prof.length →
      analyzeWithGroq cp cands limit prof ch entries =
        padAndTruncate (getTitleTokens cp.title) cands limit ("Similar product you might like")
          (parseGroqRecommendations entries cands) (parseGroqRecommendations entries cands) ∧
      analyzeCartWithGroq carts cands limit prof ch entries =
        padAndTruncate (cartTokensOf carts) cands limit ("Related to your cart items")
          (parseGroqRecommendations entries cands) (parseGroqRecommendations entries cands)) ∧
    (prof.length = 0 →
      analyzeWithGroq cp cands limit prof ch entries =
        padAndTruncate (getTitleTokens cp.title) cands limit ("Similar product you might like")
          (parseGroqRecommendations entries cands)
          (if 0 < ((parseGroqRecommendations entries cands).filter
              (fun r => decide (0 < computeTypeScore (getTitleTokens cp.title) r.title))).length then
            (parseGroqRecommendations entries cands).filter
              (fun r => decide (0 < computeTypeScore (getTitleTokens cp.title) r.title))
          else parseGroqRecommendations entries cands) ∧
      analyzeCartWithGroq carts cands limit prof ch entries =
        padAndTruncate (cartTokensOf carts) cands limit ("Related to your cart items")
          (parseGroqRecommendations entries cands)
          ((parseGroqRecommendations entries cands).filter
            (fun r => decide (0 < computeTypeScore (cartTokensOf carts) r.title)))) := by
  refine ⟨rfl, rfl, ?_, ?_⟩
  · intro hp
    constructor
    · rw [analyzeWithGroq_eq]
      unfold filterBase
      rw [if_pos hp]
    · rw [analyzeCartWithGroq_eq]
      unfold cartFilterBase
      rw [if_pos hp]
  · intro hp
    constructor
    · rw [analyzeWithGroq_eq]
      unfold filterBase
      rw [hp, if_neg (by omega)]
    · rw [analyzeCartWithGroq_eq]
      unfold cartFilterBase
      rw [hp, if_neg (by omega)]

/-- C4, witness: an anonymous one-candidate request — the empty-profile branch
of the characterization at a concrete input. -/
theorem c4_witness :
    analyzeWithGroq (⟨.num 1, "Gold Bracelet", {}⟩)
        [⟨.num 2, "Silver Bracelet", {}⟩] 1 [] [⟨"5", 1⟩] [] =
      padAndTruncate (getTitleTokens ((⟨.num 1, "Gold Bracelet", {}⟩ : Product).title))
        [⟨.num 2, "Silver Bracelet", {}⟩] 1 ("Similar product you might like")
        (parseGroqRecommendations [] [⟨.num 2, "Silver Bracelet", {}⟩])
        (if 0 < ((parseGroqRecommendations [] [⟨.num 2, "Silver Bracelet", {}⟩]).filter
            (fun r => decide (0 < computeTypeScore
              (getTitleTokens ((⟨.num 1, "Gold Bracelet", {}⟩ : Product).title)) r.title))).length
        then
          (parseGroqRecommendations [] [⟨.num 2, "Silver Bracelet", {}⟩]).filter
            (fun r => decide (0 < computeTypeScore
              (getTitleTokens ((⟨.num 1, "Gold Bracelet", {}⟩ : Product).title)) r.title))
        else parseGroqRecommendations [] [⟨.num 2, "Silver Bracelet", {}⟩]) :=
  ((c4_amended (⟨.num 1, "Gold Bracelet", {}⟩) [] [⟨.num 2, "Silver Bracelet", {}⟩] 1
    [] [⟨"5", 1⟩] [] []).2.2.2 rfl).1

/-! ## C5 -/

/-- C5, counterexample: in the cart path the tier-2 synthetic reason is
"Related to your cart items", not the single-product "Similar product you
might like" the claim asserts for both contexts: a concrete cart run pads with
the former, and the two strings differ. -/
theorem c5_counterexample :
    (∃ r ∈ analyzeCartWithGroq [⟨.num 1, "Gold Bracelet", {}⟩]
        [⟨.num 2, "Gold Necklace", {}⟩] 1 [] [] [],
      r.aiReason = "Related to your cart items" ∧ r.confidence = some (65/100)) ∧
    ¬ ("Related to your cart items" = "Similar product you might like") := by
  decide

/-- C5, amended: both analysis paths decompose into the base (drawn from the
parsed results), a tier-2 block of unused same-type candidates at confidence
0.65, and a tier-3 block at reason "You might also like" / confidence 0.5,
truncated to `limit`, with each tier running only while the list is still
short; the tier-2 reason is "Similar product you might like" in the
single-product path but "Related to your cart items" in the cart path, whose
type tokens are the deduplicated union over the cart-item titles. -/
theorem c5_amended (cp : Product) (carts cands : List Product) (limit : Nat)
    (prof : List ProfileItem) (ch : List CartHistItem) (entries : List ModelEntry) :
    (∃ pre t2 t3,
      analyzeWithGroq cp cands limit prof ch entries = (pre ++ t2 ++ t3).take limit ∧
      (∀ r ∈ pre, r ∈ parseGroqRecommendations entries cands) ∧
      (∀ r ∈ t2, ∃ p ∈ cands, 0 < computeTypeScore (getTitleTokens cp.title) p.title ∧
        r = padRec ("Similar product you might like") (65/100) p) ∧
      (∀ r ∈ t3, ∃ p ∈ cands, r = padRec ("You might also like") (1/2) p) ∧
      (t2 ≠ [] → pre.length < limit) ∧
      (t3 ≠ [] → pre.length + t2.length < limit)) ∧
    (∃ pre t2 t3,
      analyzeCartWithGroq carts cands limit prof ch entries = (pre ++ t2 ++ t3).take limit ∧
      (∀ r ∈ pre, r ∈ parseGroqRecommendations entries cands) ∧
      (∀ r ∈ t2, ∃ p ∈ cands, 0 < computeTypeScore (cartTokensOf carts) p.title ∧
        r = padRec ("Related to your cart items") (65/100) p) ∧
      (∀ r ∈ t3, ∃ p ∈ cands, r = padRec ("You might also like") (1/2) p) ∧
      (t2 ≠ [] → pre.length < limit) ∧
      (t3 ≠ [] → pre.length + t2.length < limit)) := by
  constructor
  · rw [analyzeWithGroq_eq]
    exact padAndTruncate_shape (getTitleTokens cp.title) cands limit
      ("Similar product you might like") (parseGroqRecommendations entries cands)
      (filterBase prof.length (getTitleTokens cp.title) (parseGroqRecommendations entries cands))
      (fun r hr => (filterBase_sublist prof.length _ _).subset hr)
  · rw [analyzeCartWithGroq_eq]
    exact padAndTruncate_shape (cartTokensOf carts) cands limit
      ("Related to your cart items") (parseGroqRecommendations entries cands)
      (cartFilterBase prof.length (cartTokensOf carts) (parseGroqRecommendations entries cands))
      (fun r hr => (cartFilterBase_sublist prof.length _ _).subset hr)

/-- C5, witness: the single-product decomposition at a concrete one-candidate
run. -/
theorem c5_witness :
    ∃ pre t2 t3,
      analyzeWithGroq (⟨.num 1, "Gold Bracelet", {}⟩)
          [⟨.num 2, "Silver Bracelet", {}⟩] 1 [] [] [] = (pre ++ t2 ++ t3).take 1 ∧
      (∀ r ∈ pre, r ∈ parseGroqRecommendations [] [⟨.num 2, "Silver Bracelet", {}⟩]) ∧
      (∀ r ∈ t2, ∃ p ∈ ([⟨.num 2, "Silver Bracelet", {}⟩] : List Product),
        0 < computeTypeScore
          (getTitleTokens ((⟨.num 1, "Gold Bracelet", {}⟩ : Product).title)) p.title ∧
        r = padRec ("Similar product you might like") (65/100) p) ∧
      (∀ r ∈ t3, ∃ p ∈ ([⟨.num 2, "Silver Bracelet", {}⟩] : List Product),
        r = padRec ("You might also like") (1/2) p) ∧
      (t2 ≠ [] → pre.length < 1) ∧
      (t3 ≠ [] → pre.length + t2.length < 1) :=
  (c5_amended (⟨.num 1, "Gold Bracelet", {}⟩) [] [⟨.num 2, "Silver Bracelet", {}⟩] 1
    [] [] []).1

/-! ## C6 -/

/-- C6, counterexample, three parts: (1) the stored bonus is the 4-decimal
rounding `round4(min(avg,300)/300*0.15)`, which differs from the claimed exact
formula already at `avg = 7.5` (0.0038 vs 0.00375); (2) a confidence CAN
decrease — a (model-supplied, unvalidated) confidence 1.2 is clamped to 1 once
any bonus applies; (3) with an empty boost map the list is returned unchanged,
NOT re-sorted descending by confidence. -/
theorem c6_counterexample :
    (getEngagementBoosts [⟨"1", 15/2, 2⟩] = [("1", 19/5000)] ∧
      ¬ ((19/5000 : ℚ) = min (15/2 : ℚ) 300 / 300 * (15/100))) ∧
    ((applyEngagementBoosts [{ product := ⟨.num 1, "Gold Bracelet", {}⟩, aiReason := "r", confidence := some (6/5), recommendationType := "similar" }]
        [("1", 3/100)]).map jsConfOr0 = [1] ∧
      jsConfOr0 ({ product := ⟨.num 1, "Gold Bracelet", {}⟩, aiReason := "r", confidence := some (6/5), recommendationType := "similar" } : Rec) = 6/5 ∧
      (1 : ℚ) < 6/5) ∧
    (applyEngagementBoosts
        [{ product := ⟨.num 1, "Gold Bracelet", {}⟩, aiReason := "r", confidence := some (1/10), recommendationType := "similar" },
         { product := ⟨.num 2, "Silver Bracelet", {}⟩, aiReason := "r", confidence := some (9/10), recommendationType := "similar" }] [] =
      [{ product := ⟨.num 1, "Gold Bracelet", {}⟩, aiReason := "r", confidence := some (1/10), recommendationType := "similar" },
       { product := ⟨.num 2, "Silver Bracelet", {}⟩, aiReason := "r", confidence := some (9/10), recommendationType := "similar" }] ∧
      jsConfOr0 ({ product := ⟨.num 1, "Gold Bracelet", {}⟩, aiReason := "r", confidence := some (1/10), recommendationType := "similar" } : Rec) <
        jsConfOr0 ({ product := ⟨.num 2, "Silver Bracelet", {}⟩, aiReason := "r", confidence := some (9/10), recommendationType := "similar" } : Rec)) := by
  refine ⟨⟨?_, ?_⟩, ⟨?_, ?_, ?_⟩, ?_, ?_⟩ <;> decide

/-- C6, amended: against an aggregation with non-negative average times and
unique product keys, and recommendations whose confidences are within `[0,1]`
(as validated inputs would be), `applyEngagementBoosts` over
`getEngagementBoosts rows` preserves the multiset of product ids; every output
element is the boost of an input element with confidence not decreased; the
per-product bonus is `round4(min(avg,300)/300*0.15)` exactly when that
product has `sessions ≥ 2` and `0` below the threshold (the claim's exact
formula holds only up to this 4-decimal rounding, `c6_counterexample`); and
the output is sorted descending by confidence whenever the boost map is
non-empty — an empty map returns the input unchanged, unsorted. -/
theorem c6_amended (recs : List Rec) (rows : List EngagementRow)
    (hAvg : ∀ row ∈ rows, 0 ≤ row.avgTimeSeconds)
    (hKeys : (rows.map (fun r => r.productId)).Nodup)
    (hConf : ∀ r ∈ recs, jsConfOr0 r ≤ 1) :
    List.Perm (recIds (applyEngagementBoosts recs (getEngagementBoosts rows))) (recIds recs) ∧
    (∀ x ∈ applyEngagementBoosts recs (getEngagementBoosts rows),
      ∃ y ∈ recs, x = boostOne (getEngagementBoosts rows) y ∧ jsConfOr0 y ≤ jsConfOr0 x) ∧
    (∀ row ∈ rows,
      (2 ≤ row.sessions →
        lookupBoost (getEngagementBoosts rows) row.productId =
          round4 (min row.avgTimeSeconds 300 / 300 * (15/100))) ∧
      (row.sessions < 2 → lookupBoost (getEngagementBoosts rows) row.productId = 0)) ∧
    ((getEngagementBoosts rows).isEmpty = false →
      List.Pairwise (fun a b => jsConfOr0 b ≤ jsConfOr0 a)
        (applyEngagementBoosts recs (getEngagementBoosts rows))) ∧
    ((getEngagementBoosts rows).isEmpty = true →
      applyEngagementBoosts recs (getEngagementBoosts rows) = recs) := by
  refine ⟨applyBoosts_ids_perm _ _, ?_, fun row hrow => lookupBoost_row hKeys hrow, ?_, ?_⟩
  · intro x hx
    rcases applyBoosts_mem hx with ⟨y, hy, hxe⟩
    refine ⟨y, hy, hxe, ?_⟩
    rw [hxe]
    exact boostOne_conf_ge hAvg (hConf y hy)
  · intro h
    rw [applyBoosts_eq_of_ne (by simp [h])]
    exact sortDesc_pairwise _ _
  · intro h
    rw [List.isEmpty_iff.1 h]
    exact applyBoosts_empty recs

/-- C6, witness: a single 0.5-confidence recommendation against one
3-session, 60-second row. -/
theorem c6_witness :
    List.Perm (recIds (applyEngagementBoosts
        [{ product := ⟨.num 1, "Gold Bracelet", {}⟩, aiReason := "r", confidence := some (1/2), recommendationType := "similar" }]
        (getEngagementBoosts [⟨"1", 60, 3⟩])))
      (recIds [{ product := ⟨.num 1, "Gold Bracelet", {}⟩, aiReason := "r", confidence := some (1/2), recommendationType := "similar" }]) ∧
    (∀ x ∈ applyEngagementBoosts
        [{ product := ⟨.num 1, "Gold Bracelet", {}⟩, aiReason := "r", confidence := some (1/2), recommendationType := "similar" }]
        (getEngagementBoosts [⟨"1", 60, 3⟩]),
      ∃ y ∈ ([{ product := ⟨.num 1, "Gold Bracelet", {}⟩, aiReason := "r", confidence := some (1/2), recommendationType := "similar" }] : List Rec),
        x = boostOne (getEngagementBoosts [⟨"1", 60, 3⟩]) y ∧ jsConfOr0 y ≤ jsConfOr0 x) ∧
    (∀ row ∈ ([⟨"1", 60, 3⟩] : List EngagementRow),
      (2 ≤ row.sessions →
        lookupBoost (getEngagementBoosts [⟨"1", 60, 3⟩]) row.productId =
          round4 (min row.avgTimeSeconds 300 / 300 * (15/100))) ∧
      (row.sessions < 2 → lookupBoost (getEngagementBoosts [⟨"1", 60, 3⟩]) row.productId = 0)) ∧
    ((getEngagementBoosts [⟨"1", 60, 3⟩]).isEmpty = false →
      List.Pairwise (fun a b => jsConfOr0 b ≤ jsConfOr0 a)
        (applyEngagementBoosts
          [{ product := ⟨.num 1, "Gold Bracelet", {}⟩, aiReason := "r", confidence := some (1/2), recommendationType := "similar" }]
          (getEngagementBoosts [⟨"1", 60, 3⟩]))) ∧
    ((getEngagementBoosts [⟨"1", 60, 3⟩]).isEmpty = true →
      applyEngagementBoosts
        [{ product := ⟨.num 1, "Gold Bracelet", {}⟩, aiReason := "r", confidence := some (1/2), recommendationType := "similar" }]
        (getEngagementBoosts [⟨"1", 60, 3⟩]) =
        [{ product := ⟨.num 1, "Gold Bracelet", {}⟩, aiReason := "r", confidence := some (1/2), recommendationType := "similar" }]) :=
  c6_amended [{ product := ⟨.num 1, "Gold Bracelet", {}⟩, aiReason := "r", confidence := some (1/2), recommendationType := "similar" }]
    [⟨"1", 60, 3⟩] (by decide) (by decide) (by decide)

/-! ## C7 -/

/-- C7, confirmed: `calculateSimilarity` computes exactly the specified sum of
category/brand/color bonuses and the capped keyword overlap (`specSimilarity`);
the single-product fallback attaches confidence `score/100` for the scored
product; the cart fallback attaches
`min(averageScore/100, 0.9)` where the stored score is the average similarity
over the matched cart products; and with the subject product missing the
fallback returns the first `limit` shop products at flat confidence 0.5 with
reason "You might also like this product" (it is a total function — no
throw). -/
theorem c7_confirmed (ps qs : List Product) (pid qid : JsId) (cartIds : List JsId)
    (cp : Product) (limit : Nat)
    (hfound : ps.find? (fun p => decide (p.productId = pid)) = some cp)
    (hcart : (ps.filter (fun p => cartIds.any (fun c => decide (c = p.productId)))).isEmpty = false)
    (hnone : qs.find? (fun p => decide (p.productId = qid)) = none) :
    (∀ p1 p2 : Product, calculateSimilarity p1 p2 = specSimilarity p1 p2) ∧
    (∀ r ∈ fallbackRecommendations ps pid limit,
      ∃ p ∈ ps.filter (fun p => !(decide (p.productId.toStr = pid.toStr))),
        r.product = p ∧ r.confidence = some (calculateSimilarity cp p / 100)) ∧
    (∀ r ∈ fallbackCartRecommendations ps cartIds limit,
      r.similarityScore =
        (((ps.filter (fun p => cartIds.any (fun c => decide (c = p.productId)))).map
          (fun c => calculateSimilarity c r.product)).sum) /
          (((ps.filter (fun p => cartIds.any (fun c => decide (c = p.productId)))).length : ℕ) : ℚ) ∧
      r.confidence = some (min (r.similarityScore / 100) (9/10))) ∧
    (fallbackRecommendations qs qid limit =
      (qs.take limit).map (fun p =>
        { product := p, aiReason := "You might also like this product", confidence := some (1/2),
          recommendationType := "similar" })) := by
  refine ⟨?_, ?_, ?_, fallback_eq_notfound limit hnone⟩
  · intro p1 p2
    simp only [calculateSimilarity, specSimilarity]
    split_ifs <;> ring
  · intro r hr
    rcases fallback_found_mem hfound hr with ⟨p, hp, hrp, _, hconf⟩
    exact ⟨p, hp, hrp, hconf⟩
  · intro r hr
    rcases fallbackCart_found_mem hcart hr with ⟨p, hp, hrp, hsim, hconf⟩
    rw [hrp]
    exact ⟨hsim, hconf⟩

/-- C7, witness: a two-product shop with the subject found (and in the cart),
and a disjoint shop where the subject is missing. -/
theorem c7_witness :
    (∀ p1 p2 : Product, calculateSimilarity p1 p2 = specSimilarity p1 p2) ∧
    (∀ r ∈ fallbackRecommendations
        [⟨.num 1, "Gold Bracelet", {}⟩, ⟨.num 2, "Silver Bracelet", {}⟩] (.num 1) 1,
      ∃ p ∈ ([⟨.num 1, "Gold Bracelet", {}⟩, ⟨.num 2, "Silver Bracelet", {}⟩] :
          List Product).filter (fun p => !(decide (p.productId.toStr = (JsId.num 1).toStr))),
        r.product = p ∧
        r.confidence = some (calculateSimilarity (⟨.num 1, "Gold Bracelet", {}⟩) p / 100)) ∧
    (∀ r ∈ fallbackCartRecommendations
        [⟨.num 1, "Gold Bracelet", {}⟩, ⟨.num 2, "Silver Bracelet", {}⟩] [.num 1] 1,
      r.similarityScore =
        ((([⟨.num 1, "Gold Bracelet", {}⟩, ⟨.num 2, "Silver Bracelet", {}⟩] :
            List Product).filter
            (fun p => ([JsId.num 1]).any (fun c => decide (c = p.productId)))).map
          (fun c => calculateSimilarity c r.product)).sum /
          ((((([⟨.num 1, "Gold Bracelet", {}⟩, ⟨.num 2, "Silver Bracelet", {}⟩] :
            List Product).filter
            (fun p => ([JsId.num 1]).any (fun c => decide (c = p.productId)))).length) : ℕ) : ℚ) ∧
      r.confidence = some (min (r.similarityScore / 100) (9/10))) ∧
    (fallbackRecommendations [⟨.num 3, "Pearl Necklace", {}⟩] (.num 9) 1 =
      (([⟨.num 3, "Pearl Necklace", {}⟩] : List Product).take 1).map (fun p =>
        { product := p, aiReason := "You might also like this product", confidence := some (1/2),
          recommendationType := "similar" })) :=
  c7_confirmed
    [⟨.num 1, "Gold Bracelet", {}⟩, ⟨.num 2, "Silver Bracelet", {}⟩]
    [⟨.num 3, "Pearl Necklace", {}⟩] (.num 1) (.num 9) [.num 1]
    (⟨.num 1, "Gold Bracelet", {}⟩) 1 (by decide) (by decide) (by decide)

/-! ## C8 -/

/-- C8, confirmed: `clearUserProductCache(shop, productId, userId)` deletes
exactly the entry keyed `product:shop:String(productId):(userId||'anon')`: the
next `getFromCache` for that key misses at EVERY time `now` (in particular
before the TTL elapses), while for any other key both the stored entries and
the `getFromCache` result are unchanged. -/
theorem c8_confirmed (cache : Cache) (shopId : String) (productId : JsId)
    (userId : Option String) (now : ℚ) (k : String)
    (hk : k ≠ getCacheKey ("product") shopId productId.toStr userId) :
    (getFromCache (clearUserProductCache cache shopId productId userId)
        (getCacheKey ("product") shopId productId.toStr userId) now).1 = none ∧
    (clearUserProductCache cache shopId productId userId).filter
        (fun e => decide (e.1 = k)) =
      cache.filter (fun e => decide (e.1 = k)) ∧
    (getFromCache (clearUserProductCache cache shopId productId userId) k now).1 =
      (getFromCache cache k now).1 := by
  refine ⟨?_, ?_, ?_⟩
  · unfold getFromCache clearUserProductCache
    rw [find?_filter_self]
  · unfold clearUserProductCache
    rw [List.filter_filter]
    apply List.filter_congr
    intro e _
    by_cases he : e.1 = k
    · simp [he]
      exact hk
    · simp [he]
  · unfold getFromCache clearUserProductCache
    rw [find?_filter_ne cache k _ hk]
    cases hf : cache.find? (fun e => decide (e.1 = k)) with
    | none => rfl
    | some e =>
      by_cases hexp : CACHE_TTL_MS < now - e.2.timestamp
      · simp [hexp]
      · simp [hexp]

/-- C8, witness: a two-entry cache at a pre-TTL time — the cleared triple
misses and the other entry survives intact. -/
theorem c8_witness :
    (getFromCache (clearUserProductCache
        [(getCacheKey ("product") ("s") ((JsId.num 1).toStr) none, ⟨[], 0⟩), ("other", ⟨[], 0⟩)]
        ("s") (.num 1) none)
        (getCacheKey ("product") ("s") ((JsId.num 1).toStr) none) 10).1 = none ∧
    (clearUserProductCache
        [(getCacheKey ("product") ("s") ((JsId.num 1).toStr) none, ⟨[], 0⟩), ("other", ⟨[], 0⟩)]
        ("s") (.num 1) none).filter (fun e => decide (e.1 = "other")) =
      ([(getCacheKey ("product") ("s") ((JsId.num 1).toStr) none, ⟨[], 0⟩),
        ("other", ⟨[], 0⟩)] : Cache).filter (fun e => decide (e.1 = "other")) ∧
    (getFromCache (clearUserProductCache
        [(getCacheKey ("product") ("s") ((JsId.num 1).toStr) none, ⟨[], 0⟩), ("other", ⟨[], 0⟩)]
        ("s") (.num 1) none) ("other") 10).1 =
      (getFromCache
        [(getCacheKey ("product") ("s") ((JsId.num 1).toStr) none, ⟨[], 0⟩), ("other", ⟨[], 0⟩)]
        ("other") 10).1 :=
  c8_confirmed
    [(getCacheKey ("product") ("s") ((JsId.num 1).toStr) none, ⟨[], 0⟩), ("other", ⟨[], 0⟩)]
    ("s") (.num 1) none 10 ("other") (by decide)

/-! ## C9 -/

/-- C9, counterexample: the Response Parser performs NO range validation — it
copies the model-supplied confidence verbatim — so a model confidence of 5
flows through `findUpsellProducts` to the caller, violating the declared
`confidence : float[0,1]` output type. -/
theorem c9_counterexample :
    (∃ r ∈ findUpsellProductsCore
        [⟨.num 1, "Gold Bracelet", {}⟩, ⟨.num 2, "Silver Bracelet", {}⟩]
        (.num 1) 1 [] [] (some [⟨.num 2, "m", some 5, "similar"⟩]) [],
      r.confidence = some (5:ℚ)) ∧
    ¬ ((5:ℚ) ≤ 1) := by
  constructor <;> decide

/-- C9, amended: the parser does NOT validate ranges (`c9_counterexample`), so
the `[0,1]` output guarantee holds only conditionally: whenever every
model-supplied entry confidence already lies in `[0,1]` (e.g. whenever the
remote call failed) and the engagement averages are non-negative, every
recommendation returned by either public entry point has its confidence in
`[0,1]` — every other confidence source (fallback scores, history tags,
padding tiers, boost clamping) stays in range unconditionally. -/
theorem c9_amended (ps : List Product) (pid : JsId) (cartIds : List JsId) (limit : Nat)
    (prof : List ProfileItem) (rawHist : List CartHistItem)
    (groq : Option (List ModelEntry)) (rows : List EngagementRow)
    (hE : ∀ entries, groq = some entries →
      ∀ e ∈ entries, ∀ c, e.confidence = some c → 0 ≤ c ∧ c ≤ 1)
    (hAvg : ∀ row ∈ rows, 0 ≤ row.avgTimeSeconds) :
    (∀ r ∈ findUpsellProductsCore ps pid limit prof rawHist groq rows,
      ∀ c, r.confidence = some c → 0 ≤ c ∧ c ≤ 1) ∧
    (∀ r ∈ findCartUpsellProductsCore ps cartIds limit prof rawHist groq rows,
      ∀ c, r.confidence = some c → 0 ≤ c ∧ c ≤ 1) := by
  constructor
  · intro r hr
    cases hfind : ps.find? (fun p => decide (p.productId = pid)) with
    | none =>
      rw [findUpsell_eq_notfound ps pid limit prof rawHist groq rows hfind] at hr
      exact fallback_confOK ps pid limit r hr
    | some cp =>
      rw [findUpsell_eq_found ps pid limit prof rawHist groq rows cp hfind] at hr
      by_cases hemp : (ps.filter
          (fun p => !(decide (p.productId.toStr = pid.toStr)))).isEmpty = true
      · rw [if_pos hemp] at hr
        cases hr
      · rw [if_neg hemp] at hr
        rcases boostStage_mem hr with ⟨y, hy, hye⟩
        rw [hye]
        apply boostOne_confOK
          (fun row hrow => hAvg row (List.mem_of_mem_filter hrow))
        exact merge_confOK ps prof (enrichCartHistory ps rawHist) [pid.toStr] rfl
          (upsellRecsStage_confOK ps cp pid limit prof (enrichCartHistory ps rawHist) groq hE)
          y hy
  · intro r hr
    unfold findCartUpsellProductsCore at hr
    by_cases h1 : (ps.filter
        (fun p => memStr (cartIds.map JsId.toStr) p.productId.toStr)).isEmpty = true
    · rw [if_pos h1] at hr
      exact fallbackCart_confOK ps cartIds limit r hr
    · rw [if_neg h1] at hr
      by_cases h2 : (ps.filter
          (fun p => !(memStr (cartIds.map JsId.toStr) p.productId.toStr))).isEmpty = true
      · rw [if_pos h2] at hr
        cases hr
      · rw [if_neg h2] at hr
        rcases boostStage_mem hr with ⟨y, hy, hye⟩
        rw [hye]
        apply boostOne_confOK
          (fun row hrow => hAvg row (List.mem_of_mem_filter hrow))
        exact merge_confOK ps prof
          (enrichCartHistory ps (rawHist.filter
            (fun ch => !(memStr (cartIds.map JsId.toStr) ch.productId))))
          (cartIds.map JsId.toStr) rfl
          (cartRecsStage_confOK ps cartIds limit prof
            (enrichCartHistory ps (rawHist.filter
              (fun ch => !(memStr (cartIds.map JsId.toStr) ch.productId)))) groq hE)
          y hy

/-- C9, witness: one in-range model entry and one 3-session engagement row —
every confidence both entry points return stays in `[0,1]`. -/
theorem c9_witness :
    (∀ r ∈ findUpsellProductsCore
        [⟨.num 1, "Gold Bracelet", {}⟩, ⟨.num 2, "Silver Bracelet", {}⟩]
        (.num 1) 1 [] [] (some [⟨.num 2, "m", some (8/10), "similar"⟩]) [⟨"2", 60, 3⟩],
      ∀ c, r.confidence = some c → 0 ≤ c ∧ c ≤ 1) ∧
    (∀ r ∈ findCartUpsellProductsCore
        [⟨.num 1, "Gold Bracelet", {}⟩, ⟨.num 2, "Silver Bracelet", {}⟩]
        [.num 1] 1 [] [] (some [⟨.num 2, "m", some (8/10), "similar"⟩]) [⟨"2", 60, 3⟩],
      ∀ c, r.confidence = some c → 0 ≤ c ∧ c ≤ 1) :=
  c9_amended
    [⟨.num 1, "Gold Bracelet", {}⟩, ⟨.num 2, "Silver Bracelet", {}⟩]
    (.num 1) [.num 1] 1 [] []
    (some [⟨.num 2, "m", some (8/10), "similar"⟩]) [⟨"2", 60, 3⟩]
    (fun entries h => by cases h; decide)
    (by decide)

/-! ## C10 -/

/-- C10, confirmed: inside `applyEngagementBoosts` (whose element transform is
`boostOne`, and which on a one-element list returns exactly the transformed
element), a recommendation whose stored confidence is missing or exactly 0 and
whose product carries a nonzero bonus `b` from `getEngagementBoosts` gets
output confidence exactly `min(0.5 + b, 1.0)` — the falsy confidence is
replaced by the 0.5 default before the bonus is added, and since `b` is
already rounded to 4 decimals the final `toFixed(4)` rounding is the identity
— while a zero-bonus recommendation is returned as the identical object, its
original (missing or zero) confidence untouched. -/
theorem c10_confirmed (rows : List EngagementRow) (r : Rec) :
    ((r.confidence = none ∨ r.confidence = some 0) →
      lookupBoost (getEngagementBoosts rows) r.productId.toStr ≠ 0 →
      (boostOne (getEngagementBoosts rows) r).confidence =
        some (min (1/2 + lookupBoost (getEngagementBoosts rows) r.productId.toStr) 1) ∧
      (boostOne (getEngagementBoosts rows) r).engagementBoost =
        some (lookupBoost (getEngagementBoosts rows) r.productId.toStr)) ∧
    (lookupBoost (getEngagementBoosts rows) r.productId.toStr = 0 →
      boostOne (getEngagementBoosts rows) r = r) ∧
    (applyEngagementBoosts [r] (getEngagementBoosts rows) =
      [boostOne (getEngagementBoosts rows) r]) := by
  refine ⟨?_, ?_, ?_⟩
  · intro hf hb
    rw [boostOne_eq, if_neg hb]
    have hhalf : jsConfOrHalf r = 1/2 := by
      rcases hf with hf | hf <;> simp [jsConfOrHalf, hf]
    refine ⟨?_, rfl⟩
    rw [show ({ r with
        confidence := some (round4 (min (jsConfOrHalf r +
          lookupBoost (getEngagementBoosts rows) r.productId.toStr) 1)),
        engagementBoost := some (lookupBoost (getEngagementBoosts rows) r.productId.toStr) } :
          Rec).confidence =
      some (round4 (min (jsConfOrHalf r +
        lookupBoost (getEngagementBoosts rows) r.productId.toStr) 1)) from rfl, hhalf]
    rcases lookupBoost_dec4 rows r.productId.toStr with ⟨j, hj⟩
    rw [hj]
    by_cases hle : 1/2 + (j:ℚ)/10000 ≤ 1
    · rw [min_eq_left hle, show (1:ℚ)/2 + (j:ℚ)/10000 = (((5000 + j : ℤ):ℚ))/10000 by
        push_cast; ring, round4_exact]
    · rw [min_eq_right (le_of_not_le hle), round4_one]
  · intro h0
    rw [boostOne_eq, if_pos h0]
  · unfold applyEngagementBoosts
    by_cases hm : (getEngagementBoosts rows).isEmpty = true
    · rw [if_pos hm, List.isEmpty_iff.1 hm, boostOne_nil]
    · rw [if_neg hm]
      rfl

/-- C10, witness: a missing confidence against a 3-session, 60-second row — the
default 0.5 plus the 0.03 bonus, unrounded. -/
theorem c10_witness :
    (boostOne (getEngagementBoosts [⟨"1", 60, 3⟩])
        { product := ⟨.num 1, "Gold Bracelet", {}⟩, aiReason := "r", confidence := none,
            recommendationType := "similar" }).confidence =
      some (min (1/2 + lookupBoost (getEngagementBoosts [⟨"1", 60, 3⟩])
        ({ product := ⟨.num 1, "Gold Bracelet", {}⟩, aiReason := "r", confidence := none,
            recommendationType := "similar" } : Rec).productId.toStr) 1) ∧
    (boostOne (getEngagementBoosts [⟨"1", 60, 3⟩])
        { product := ⟨.num 1, "Gold Bracelet", {}⟩, aiReason := "r", confidence := none,
            recommendationType := "similar" }).engagementBoost =
      some (lookupBoost (getEngagementBoosts [⟨"1", 60, 3⟩])
        ({ product := ⟨.num 1, "Gold Bracelet", {}⟩, aiReason := "r", confidence := none,
            recommendationType := "similar" } : Rec).productId.toStr) :=
  (c10_confirmed [⟨"1", 60, 3⟩]
    { product := ⟨.num 1, "Gold Bracelet", {}⟩, aiReason := "r", confidence := none,
      recommendationType := "similar" }).1 (Or.inl rfl) (by decide)

end Upsell
